import Mathlib

/-!
# Owl aPAKE protocol core: a shallow embedding

The repository snapshot contains the test suite (`tests.py`), the examples
(`example_full.py`, `examplesimplified.py`) and the package export list
(`owl_crypto_py/__init__.py`), but not the four core modules
(`owl_client.py`, `owl_server.py`, `owl_common.py`, `messages.py`).
Every definition of the protocol core below is therefore modelled from the
specification (`spec.md`), faithful to its words, and each doc comment says
so and names the missing module.

Modelling choices, stated once here:

* **Group.** The spec works in a prime-order cyclic group (one of P256,
  P384, P521, FourQ) with generator `G` and order `n`.  Every such group is
  isomorphic to `ZMod n` written additively, so a point is represented by
  its discrete logarithm to base `G`: `Pt C := ZMod C.n`.  The group
  operation `pmul` is addition of logarithms, exponentiation `pexp` is
  scalar multiplication, the generator is `1` and the identity is `0`.
  On-curve and prime-order-subgroup membership are trivially true in this
  representation, so the corresponding checks reduce to the identity check.
* **Hash, KDF and MAC.** `H_scalar`, `KDF` and `KC` are parameters of the
  context `OwlCtx` (arbitrary functions on canonical encodings), so every
  theorem holds for any instantiation; regularity assumptions a claim needs
  (injectivity, absence of accidental collisions) appear as explicit
  hypotheses, discharged on concrete instances by the witnesses.
* **Randomness.** Every random draw (`x1, x2, x3, x4`, ZKP nonces) is an
  explicit argument, so a theorem about "the" protocol run quantifies over
  the coins; hypotheses such as `x1 + x2 ≠ 0` exclude the degenerate draws
  (each of probability `1/n`) outside which the spec's probabilistic
  statements hold.
* **Bytes.** Byte strings (keys, confirmation tags) are `List ℕ`.
-/

namespace Owl

/-- Modelled from the spec: §3/§6 `Config` (source `owl_common.py` is not in
the repository snapshot).  The curve choice of `Config` is abstracted to the
group data it determines: the group order `n` and the associated hash,
key-derivation and key-confirmation functions.  `serverId` is the configured
server identity string.  `Hs dom items` models `H_scalar(dom, items…)`
before the reduction mod `n`; `kdf` models `KDF(point, transcript)`;
`kcTag key roleTag transcript` models the key-confirmation MAC `KC`. -/
structure OwlCtx where
  n : ℕ
  serverId : String
  Hs : String → List ℕ → ℕ
  kdf : ℕ → List ℕ → List ℕ
  kcTag : List ℕ → String → List ℕ → List ℕ

/-- Points of the prime-order subgroup, represented by their discrete
logarithm to the generator `G` (see the module comment). -/
abbrev Pt (C : OwlCtx) : Type := ZMod C.n

/-- Scalars mod the group order `n`. -/
abbrev Scal (C : OwlCtx) : Type := ZMod C.n

/-- Canonical numeric encoding of a string (length-preserving positional
encoding of the character codes), used wherever the spec feeds a string to
`H_scalar` or into a transcript. -/
def encStr (s : String) : ℕ :=
  s.toList.foldl (fun a c => a * 2000000 + (c.toNat + 1)) 0

/-- The group operation (`P·Q` in the spec's multiplicative writing). -/
def pmul (C : OwlCtx) (P Q : Pt C) : Pt C := P + Q

/-- Exponentiation (`P^k` in the spec's multiplicative writing). -/
def pexp (C : OwlCtx) (P : Pt C) (k : Scal C) : Pt C := k * P

/-- The group inverse (`P⁻¹`, i.e. division in the spec). -/
def pinv (C : OwlCtx) (P : Pt C) : Pt C := -P

/-- The generator `G`. -/
def gG (C : OwlCtx) : Pt C := 1

/-- The identity element of the group. -/
def identityPt (C : OwlCtx) : Pt C := 0

/-- Modelled from the spec: §4.2 `H_scalar(domain, items…) → Scalar`
(source `owl_common.py` is missing): hash the domain-separation tag with
the canonical serializations of the items and reduce mod `n`. -/
def hashToScalar (C : OwlCtx) (dom : String) (items : List ℕ) : Scal C :=
  ((C.Hs dom items : ℕ) : ZMod C.n)

/-- Modelled from the spec: §3 `ZKPProof`: tuple `(h, r, b)` where `h` is
the scalar challenge, `r` the scalar response and `b` the public point. -/
structure ZKPProof (C : OwlCtx) where
  h : Scal C
  r : Scal C
  b : Pt C
deriving DecidableEq

namespace ZKP

/-- Modelled from the spec: §4.3 `Generate(x, base) → (h, r, b)` (source
`owl_common.py` is missing): with nonce `v`, compute `V = base^v`,
`b = base^x`, `h = H_scalar("ZKP", base, V, b, prover_id)` and
`r = v − x·h mod n`. -/
def generate (C : OwlCtx) (x : Scal C) (base : Pt C) (proverId : String)
    (v : Scal C) : ZKPProof C :=
  let b := pexp C base x
  let V := pexp C base v
  let h := hashToScalar C "ZKP" [base.val, V.val, b.val, encStr proverId]
  ⟨h, v - x * h, b⟩

/-- Modelled from the spec: §4.3 `Verify(proof, base, prover_id) → bool`
(source `owl_common.py` is missing): recompute `V = base^r · b^h` and
`h = H_scalar("ZKP", base, V, b, prover_id)`; accept iff the recomputed
challenge matches and `b` is a valid non-identity subgroup point (subgroup
membership is trivially true in the discrete-log representation). -/
def verify (C : OwlCtx) (p : ZKPProof C) (base : Pt C)
    (proverId : String) : Bool :=
  let V := pmul C (pexp C base p.r) (pexp C p.b p.h)
  let h := hashToScalar C "ZKP" [base.val, V.val, p.b.val, encStr proverId]
  decide (h = p.h) && decide (p.b ≠ identityPt C)

end ZKP

/-- Modelled from the spec: §3 `RegistrationRequest` (source `messages.py`
is missing): `{username, pi, T}`. -/
structure RegistrationRequest (C : OwlCtx) where
  username : String
  pi : Scal C
  T : Pt C
deriving DecidableEq

/-- Modelled from the spec: §3 `UserCredentials` (source `messages.py` is
missing): `{X3, pi, T}`, the server-persisted verifier. -/
structure UserCredentials (C : OwlCtx) where
  X3 : Pt C
  pi : Scal C
  T : Pt C
deriving DecidableEq

/-- Modelled from the spec: §3 `AuthInitRequest` (source `messages.py` is
missing): flow 1, `{X1, X2, PI1, PI2}`. -/
structure AuthInitRequest (C : OwlCtx) where
  X1 : Pt C
  X2 : Pt C
  PI1 : ZKPProof C
  PI2 : ZKPProof C
deriving DecidableEq

/-- Modelled from the spec: §3 `AuthInitResponse` (source `messages.py` is
missing): flow 2, `{X3, X4, beta, PI3, PI4, PIbeta}`. -/
structure AuthInitResponse (C : OwlCtx) where
  X3 : Pt C
  X4 : Pt C
  beta : Pt C
  PI3 : ZKPProof C
  PI4 : ZKPProof C
  PIbeta : ZKPProof C
deriving DecidableEq

/-- Modelled from the spec: §3 `AuthInitialValues` (source `messages.py` is
missing): server per-session state `{beta, X1, X2, X3, X4, pi, x4}`. -/
structure AuthInitialValues (C : OwlCtx) where
  beta : Pt C
  X1 : Pt C
  X2 : Pt C
  X3 : Pt C
  X4 : Pt C
  pi : Scal C
  x4 : Scal C
deriving DecidableEq

/-- Modelled from the spec: §3 `AuthFinishRequest` (source `messages.py` is
missing): flow 3, `{alpha, PIalpha, r, kc}`. -/
structure AuthFinishRequest (C : OwlCtx) where
  alpha : Pt C
  PIalpha : ZKPProof C
  r : Scal C
  kc : List ℕ
deriving DecidableEq

/-- Modelled from the spec: §3 `SessionOutput`: `{key, kc, kcTest}`. -/
structure SessionOutput where
  key : List ℕ
  kc : List ℕ
  kcTest : List ℕ
deriving DecidableEq

/-- Modelled from the spec: §4.5.1 step 4 of `authInit`: the client session
state `{username, password, pi, x1, x2, X1, X2}` (source `owl_client.py` is
missing). -/
structure ClientSession (C : OwlCtx) where
  username : String
  password : String
  pi : Scal C
  x1 : Scal C
  x2 : Scal C
  X1 : Pt C
  X2 : Pt C
deriving DecidableEq

/-- Modelled from the spec: §4.5.1 client states
`Fresh → InitSent → Done | Failed` (source `owl_client.py` is missing). -/
inductive ClientState (C : OwlCtx) where
  | fresh : ClientState C
  | initSent (s : ClientSession C) : ClientState C
  | done : ClientState C
  | failed : ClientState C
deriving DecidableEq

/-- Whether the client state is `InitSent` (i.e. `authInit` has been called
and not yet consumed). -/
def ClientState.isInitSent (C : OwlCtx) : ClientState C → Bool
  | .initSent _ => true
  | _ => false

/-- Modelled from the spec: §4.5.1 step 8 of client `authFinish`: the client
returns `{finishRequest, key, kc, kcTest}` (source `owl_client.py` is
missing). -/
structure ClientFinishOutput (C : OwlCtx) where
  finishRequest : AuthFinishRequest C
  key : List ℕ
  kc : List ℕ
  kcTest : List ℕ
deriving DecidableEq

/-- Modelled from the spec: §7 variant result of client `authFinish`:
`SessionOutput | ZKPVerificationFailure | UninitialisedClientError`
(source `owl_client.py` is missing). -/
inductive ClientFinishResult (C : OwlCtx) where
  | success (out : ClientFinishOutput C) : ClientFinishResult C
  | ZKPVerificationFailure : ClientFinishResult C
  | UninitialisedClientError : ClientFinishResult C
deriving DecidableEq

/-- Modelled from the spec: §4.5.2 server `authInit` success payload
`{response, initial}` (source `owl_server.py` is missing). -/
structure ServerInitOk (C : OwlCtx) where
  response : AuthInitResponse C
  initial : AuthInitialValues C
deriving DecidableEq

/-- Modelled from the spec: §7 variant result of server `authInit`:
`{response, initial} | ZKPVerificationFailure` (source `owl_server.py` is
missing). -/
inductive ServerInitResult (C : OwlCtx) where
  | success (res : ServerInitOk C) : ServerInitResult C
  | ZKPVerificationFailure : ServerInitResult C
deriving DecidableEq

/-- Modelled from the spec: §7 variant result of server `authFinish`:
`SessionOutput | ZKPVerificationFailure | AuthenticationFailure`
(source `owl_server.py` is missing). -/
inductive ServerFinishResult (C : OwlCtx) where
  | success (out : SessionOutput) : ServerFinishResult C
  | ZKPVerificationFailure : ServerFinishResult C
  | AuthenticationFailure : ServerFinishResult C
deriving DecidableEq

/-- Modelled from the spec: §4.5.1 `pi = H_scalar("PI", username, serverId,
password)` reduced mod `n`. -/
def piOf (C : OwlCtx) (username password : String) : Scal C :=
  hashToScalar C "PI" [encStr username, encStr C.serverId, encStr password]

/-- Modelled from the spec: §4.5.1 `t = H_scalar("T", password, username)`
reduced mod `n`. -/
def tOf (C : OwlCtx) (username password : String) : Scal C :=
  hashToScalar C "T" [encStr password, encStr username]

/-- Modelled from the spec: §4.5.1 step 6: the session transcript
`username ‖ serverId ‖ X1 ‖ X2 ‖ X3 ‖ X4 ‖ beta ‖ alpha`. -/
def transcript (C : OwlCtx) (username : String)
    (X1 X2 X3 X4 beta alpha : Pt C) : List ℕ :=
  [encStr username, encStr C.serverId,
   X1.val, X2.val, X3.val, X4.val, beta.val, alpha.val]

/-- Modelled from the spec: §4.5.1 step 5: the client's shared secret
`K = (beta / X4^(x2·pi))^x2`. -/
def clientK (C : OwlCtx) (beta X4 : Pt C) (x2 pi : Scal C) : Pt C :=
  pexp C (pmul C beta (pinv C (pexp C X4 (x2 * pi)))) x2

/-- Modelled from the spec: §4.5.2 step 2 of server `authFinish`: the
server's shared secret, the mirror formula `K = (alpha / X2^(x4·pi))^x4`. -/
def serverK (C : OwlCtx) (alpha X2 : Pt C) (x4 pi : Scal C) : Pt C :=
  pexp C (pmul C alpha (pinv C (pexp C X2 (x4 * pi)))) x4

namespace OwlCommon

/-- The constant-time accumulator of the tag comparison: one comparison per
byte over the full common length, folded into a running mismatch count with
no early exit. -/
def ctDiffCount (a b : List ℕ) : ℕ :=
  (List.zipWith (fun x y => if x = y then 0 else 1) a b).foldl (· + ·) 0

/-- Modelled from the spec: §4.2/§5 constant-time key-confirmation
comparison `OwlCommon.verifyKeyConfirmation` (source `owl_common.py` is
missing): the two tags are equal iff they have equal length and the
accumulated mismatch count over all byte positions is zero; the traversal
never exits early. -/
def verifyKeyConfirmation (a b : List ℕ) : Bool :=
  decide (a.length = b.length) && decide (ctDiffCount a b = 0)

/-- The same fold as `ctDiffCount`, instrumented with a step counter: the
second component counts how many byte comparisons are executed.  This is
the cost model for the constant-time claim. -/
def ctScanCount (a b : List ℕ) : ℕ × ℕ :=
  (List.zipWith (fun x y => if x = y then 0 else 1) a b).foldl
    (fun p d => (p.1 + d, p.2 + 1)) (0, 0)

end OwlCommon

namespace OwlClient

/-- Modelled from the spec: §4.5.1 `register(username, password) →
RegistrationRequest` (source `owl_client.py` is missing): compute `t`,
`pi`, `T = G^t` and emit `{username, pi, T}`; no state is retained. -/
def register (C : OwlCtx) (username password : String) :
    RegistrationRequest C :=
  ⟨username, piOf C username password, pexp C (gG C) (tOf C username password)⟩

/-- Modelled from the spec: §4.5.1 `authInit(username, password) →
AuthInitRequest` (source `owl_client.py` is missing): recompute `pi`,
draw `x1, x2`, set `X1 = G^x1`, `X2 = G^x2`, prove knowledge of `x1, x2`
with prover id `username`, store the session and advance to `InitSent`.
The random draws `x1 x2` and ZKP nonces `v1 v2` are explicit arguments. -/
def authInit (C : OwlCtx) (username password : String)
    (x1 x2 v1 v2 : Scal C) : AuthInitRequest C × ClientState C :=
  let pi := piOf C username password
  let X1 := pexp C (gG C) x1
  let X2 := pexp C (gG C) x2
  let PI1 := ZKP.generate C x1 (gG C) username v1
  let PI2 := ZKP.generate C x2 (gG C) username v2
  (⟨X1, X2, PI1, PI2⟩, .initSent ⟨username, password, pi, x1, x2, X1, X2⟩)

/-- Modelled from the spec: §4.5.1 `authFinish(response) → SessionOutput |
ZKPVerificationFailure | UninitialisedClientError` (source `owl_client.py`
is missing): if the state is not `InitSent` return
`UninitialisedClientError`; verify `PI3`, `PI4` under `G` and `PIbeta`
under the alternate base `X1·X2·X3`, all with prover id `serverId`, and
reject identity `X3`/`X4` (failure discards the session); otherwise compute
`alpha`, `PIalpha`, the recovery scalar `r`, the shared secret `K`, the
session key and the two confirmation tags, and advance to `Done`.  The
`PIalpha` nonce `vAlpha` is an explicit argument. -/
def authFinish (C : OwlCtx) (st : ClientState C) (resp : AuthInitResponse C)
    (vAlpha : Scal C) : ClientFinishResult C × ClientState C :=
  match st with
  | .initSent s =>
    if ZKP.verify C resp.PI3 (gG C) C.serverId = true
        ∧ ZKP.verify C resp.PI4 (gG C) C.serverId = true
        ∧ ZKP.verify C resp.PIbeta (pmul C (pmul C s.X1 s.X2) resp.X3)
            C.serverId = true
        ∧ resp.X3 ≠ identityPt C ∧ resp.X4 ≠ identityPt C then
      let baseAlpha := pmul C (pmul C s.X1 resp.X3) resp.X4
      let alpha := pexp C baseAlpha (s.x2 * s.pi)
      let PIalpha := ZKP.generate C (s.x2 * s.pi) baseAlpha s.username vAlpha
      let rScal := s.x1 - s.pi * hashToScalar C "H_PW" [encStr s.password]
      let K := clientK C resp.beta resp.X4 s.x2 s.pi
      let tr := transcript C s.username s.X1 s.X2 resp.X3 resp.X4
          resp.beta alpha
      let sessionKey := C.kdf K.val tr
      let kcU := C.kcTag sessionKey "KC_1_U" tr
      let kcV := C.kcTag sessionKey "KC_1_V" tr
      (.success ⟨⟨alpha, PIalpha, rScal, kcU⟩, sessionKey, kcU, kcV⟩, .done)
    else
      (.ZKPVerificationFailure, .failed)
  | st => (.UninitialisedClientError, st)

/-- Modelled from the spec: §5/§9 the synchronous API is a thin adapter
over the same CPU-only core (`register_sync` in `owl_client.py`, missing
from the snapshot): in the pure model it is the core function itself. -/
def register_sync (C : OwlCtx) (username password : String) :
    RegistrationRequest C :=
  register C username password

/-- Modelled from the spec: §5/§9 thin synchronous adapter for `authInit`
(`authInit_sync` in `owl_client.py`, missing from the snapshot). -/
def authInit_sync (C : OwlCtx) (username password : String)
    (x1 x2 v1 v2 : Scal C) : AuthInitRequest C × ClientState C :=
  authInit C username password x1 x2 v1 v2

/-- Modelled from the spec: §5/§9 thin synchronous adapter for `authFinish`
(`authFinish_sync` in `owl_client.py`, missing from the snapshot). -/
def authFinish_sync (C : OwlCtx) (st : ClientState C)
    (resp : AuthInitResponse C) (vAlpha : Scal C) :
    ClientFinishResult C × ClientState C :=
  authFinish C st resp vAlpha

end OwlClient

namespace OwlServer

/-- Modelled from the spec: §4.5.2 `register(RegistrationRequest) →
UserCredentials` (source `owl_server.py` is missing): validate `T`
non-identity (on-curve is trivially true in the model) and `pi ∈ [1,n)`,
draw `x3`, set `X3 = G^x3` and persist `{X3, pi, T}`.  The draw `x3` is an
explicit argument; an invalid request yields `none`. -/
def register (C : OwlCtx) (req : RegistrationRequest C) (x3 : Scal C) :
    Option (UserCredentials C) :=
  if req.T ≠ identityPt C ∧ req.pi ≠ 0 then
    some ⟨pexp C (gG C) x3, req.pi, req.T⟩
  else
    none

/-- Modelled from the spec: §4.5.2 `authInit(username, req, creds) →
{response, initial} | ZKPVerificationFailure` (source `owl_server.py` is
missing): verify `PI1, PI2` under `G` with prover id `username` and reject
`X1·X2 = identity`; draw per-session `x3, x4` (the source uses per-session
`x3`, regenerating `X3`), compute `X3, X4`, `beta = (X1·X2·X3)^(x4·pi)`,
the three server proofs with prover id `serverId`, and return the response
together with the per-session `initial` values.  The draws `x3 x4` and the
nonces `v3 v4 vb` are explicit arguments. -/
def authInit (C : OwlCtx) (username : String) (req : AuthInitRequest C)
    (creds : UserCredentials C) (x3 x4 v3 v4 vb : Scal C) :
    ServerInitResult C :=
  if ZKP.verify C req.PI1 (gG C) username = true
      ∧ ZKP.verify C req.PI2 (gG C) username = true
      ∧ pmul C req.X1 req.X2 ≠ identityPt C then
    let X3 := pexp C (gG C) x3
    let X4 := pexp C (gG C) x4
    let baseBeta := pmul C (pmul C req.X1 req.X2) X3
    let beta := pexp C baseBeta (x4 * creds.pi)
    let PI3 := ZKP.generate C x3 (gG C) C.serverId v3
    let PI4 := ZKP.generate C x4 (gG C) C.serverId v4
    let PIbeta := ZKP.generate C (x4 * creds.pi) baseBeta C.serverId vb
    .success ⟨⟨X3, X4, beta, PI3, PI4, PIbeta⟩,
              ⟨beta, req.X1, req.X2, X3, X4, creds.pi, x4⟩⟩
  else
    .ZKPVerificationFailure

/-- Modelled from the spec: §4.5.2 `authFinish(username, req, initial) →
SessionOutput | ZKPVerificationFailure | AuthenticationFailure` (source
`owl_server.py` is missing): verify `PIalpha` under the alternate base
`X1·X3·X4` with prover id `username`; compute the mirror shared secret and
the session key; compare `req.kc` with the computed expectation in constant
time, answering `AuthenticationFailure` on mismatch. -/
def authFinish (C : OwlCtx) (username : String) (req : AuthFinishRequest C)
    (init : AuthInitialValues C) : ServerFinishResult C :=
  let baseAlpha := pmul C (pmul C init.X1 init.X3) init.X4
  if ZKP.verify C req.PIalpha baseAlpha username = true then
    let K := serverK C req.alpha init.X2 init.x4 init.pi
    let tr := transcript C username init.X1 init.X2 init.X3 init.X4
        init.beta req.alpha
    let sessionKey := C.kdf K.val tr
    let kcTestU := C.kcTag sessionKey "KC_1_U" tr
    let kcV := C.kcTag sessionKey "KC_1_V" tr
    if OwlCommon.verifyKeyConfirmation req.kc kcTestU = true then
      .success ⟨sessionKey, kcV, kcTestU⟩
    else
      .AuthenticationFailure
  else
    .ZKPVerificationFailure

/-- Modelled from the spec: §5/§9 thin synchronous adapter for `register`
(`register_sync` in `owl_server.py`, missing from the snapshot). -/
def register_sync (C : OwlCtx) (req : RegistrationRequest C) (x3 : Scal C) :
    Option (UserCredentials C) :=
  register C req x3

/-- Modelled from the spec: §5/§9 thin synchronous adapter for `authInit`
(`authInit_sync` in `owl_server.py`, missing from the snapshot). -/
def authInit_sync (C : OwlCtx) (username : String) (req : AuthInitRequest C)
    (creds : UserCredentials C) (x3 x4 v3 v4 vb : Scal C) :
    ServerInitResult C :=
  authInit C username req creds x3 x4 v3 v4 vb

/-- Modelled from the spec: §5/§9 thin synchronous adapter for `authFinish`
(`authFinish_sync` in `owl_server.py`, missing from the snapshot). -/
def authFinish_sync (C : OwlCtx) (username : String)
    (req : AuthFinishRequest C) (init : AuthInitialValues C) :
    ServerFinishResult C :=
  authFinish C username req init

end OwlServer

/-- Modelled from the spec: §4.4/§6: a serialized field value of the
key/value wire container (textual JSON in the source): a numeric encoding
of a point or scalar, a byte string, or a string. -/
inductive FieldVal where
  | num (v : ℕ) : FieldVal
  | bytes (bs : List ℕ) : FieldVal
  | str (s : String) : FieldVal
deriving DecidableEq

/-- Modelled from the spec: §6: the canonical key/value container of a
serialized message: named fields in a fixed order (unknown fields are
rejected by deserialization). -/
abbrev WireMsg : Type := List (String × FieldVal)

/-- Modelled from the spec: §7 `DeserializationError` (source `messages.py`
is missing): structural or cryptographic validation failure, carrying only
the failure category. -/
inductive DeserializationError where
  | structuralError : DeserializationError
  | validationError : DeserializationError
deriving DecidableEq

namespace RegistrationRequest

/-- Modelled from the spec: §4.4/§6 deterministic serialization of
`RegistrationRequest` (`to_json` in `messages.py`, missing): field name →
value, points and scalars in canonical numeric form. -/
def to_json (C : OwlCtx) (m : RegistrationRequest C) : WireMsg :=
  [("username", .str m.username), ("pi", .num m.pi.val), ("T", .num m.T.val)]

/-- Modelled from the spec: §4.4 deserialization of `RegistrationRequest`
(`deserialize` in `messages.py`, missing): structural validation (field
presence, order, no unknown fields) then cryptographic validation (scalar
range `[1,n)`, point non-identity; on-curve is trivially true in the
model). -/
def deserialize (C : OwlCtx) (w : WireMsg) :
    Except DeserializationError (RegistrationRequest C) :=
  match w with
  | [(f1, .str u), (f2, .num p), (f3, .num t)] =>
    if f1 = "username" ∧ f2 = "pi" ∧ f3 = "T" then
      if p < C.n ∧ 0 < p ∧ t < C.n ∧ 0 < t then
        .ok ⟨u, (p : ZMod C.n), (t : ZMod C.n)⟩
      else
        .error .validationError
    else
      .error .structuralError
  | _ => .error .structuralError

/-- The validity invariant §3 imposes on an in-flight
`RegistrationRequest`: `pi ∈ [1,n)` and `T` not the identity. -/
abbrev wf (C : OwlCtx) (m : RegistrationRequest C) : Prop :=
  m.pi ≠ 0 ∧ m.T ≠ identityPt C

end RegistrationRequest

namespace UserCredentials

/-- Modelled from the spec: §4.4/§6 deterministic serialization of
`UserCredentials` (`to_json` in `messages.py`, missing). -/
def to_json (C : OwlCtx) (m : UserCredentials C) : WireMsg :=
  [("X3", .num m.X3.val), ("pi", .num m.pi.val), ("T", .num m.T.val)]

/-- Modelled from the spec: §4.4 deserialization of `UserCredentials`
(`deserialize` in `messages.py`, missing). -/
def deserialize (C : OwlCtx) (w : WireMsg) :
    Except DeserializationError (UserCredentials C) :=
  match w with
  | [(f1, .num x3), (f2, .num p), (f3, .num t)] =>
    if f1 = "X3" ∧ f2 = "pi" ∧ f3 = "T" then
      if x3 < C.n ∧ 0 < x3 ∧ p < C.n ∧ 0 < p ∧ t < C.n ∧ 0 < t then
        .ok ⟨(x3 : ZMod C.n), (p : ZMod C.n), (t : ZMod C.n)⟩
      else
        .error .validationError
    else
      .error .structuralError
  | _ => .error .structuralError

/-- The validity invariant §3 imposes on stored `UserCredentials`. -/
abbrev wf (C : OwlCtx) (m : UserCredentials C) : Prop :=
  m.X3 ≠ identityPt C ∧ m.pi ≠ 0 ∧ m.T ≠ identityPt C

end UserCredentials

namespace AuthInitRequest

/-- Modelled from the spec: §4.4/§6 deterministic serialization of
`AuthInitRequest` (`to_json` in `messages.py`, missing); proofs are encoded
as three sub-fields `h`, `r`, `b`. -/
def to_json (C : OwlCtx) (m : AuthInitRequest C) : WireMsg :=
  [("X1", .num m.X1.val), ("X2", .num m.X2.val),
   ("PI1.h", .num m.PI1.h.val), ("PI1.r", .num m.PI1.r.val),
   ("PI1.b", .num m.PI1.b.val),
   ("PI2.h", .num m.PI2.h.val), ("PI2.r", .num m.PI2.r.val),
   ("PI2.b", .num m.PI2.b.val)]

/-- Modelled from the spec: §4.4 deserialization of `AuthInitRequest`
(`deserialize` in `messages.py`, missing). -/
def deserialize (C : OwlCtx) (w : WireMsg) :
    Except DeserializationError (AuthInitRequest C) :=
  match w with
  | [(f1, .num a1), (f2, .num a2), (f3, .num h1), (f4, .num r1),
     (f5, .num b1), (f6, .num h2), (f7, .num r2), (f8, .num b2)] =>
    if f1 = "X1" ∧ f2 = "X2" ∧ f3 = "PI1.h" ∧ f4 = "PI1.r" ∧ f5 = "PI1.b"
        ∧ f6 = "PI2.h" ∧ f7 = "PI2.r" ∧ f8 = "PI2.b" then
      if a1 < C.n ∧ 0 < a1 ∧ a2 < C.n ∧ 0 < a2
          ∧ h1 < C.n ∧ r1 < C.n ∧ b1 < C.n ∧ 0 < b1
          ∧ h2 < C.n ∧ r2 < C.n ∧ b2 < C.n ∧ 0 < b2 then
        .ok ⟨(a1 : ZMod C.n), (a2 : ZMod C.n),
             ⟨(h1 : ZMod C.n), (r1 : ZMod C.n), (b1 : ZMod C.n)⟩,
             ⟨(h2 : ZMod C.n), (r2 : ZMod C.n), (b2 : ZMod C.n)⟩⟩
      else
        .error .validationError
    else
      .error .structuralError
  | _ => .error .structuralError

/-- The validity invariant §3 imposes on an in-flight `AuthInitRequest`:
all points (including the proofs' public points) non-identity. -/
abbrev wf (C : OwlCtx) (m : AuthInitRequest C) : Prop :=
  m.X1 ≠ identityPt C ∧ m.X2 ≠ identityPt C
    ∧ m.PI1.b ≠ identityPt C ∧ m.PI2.b ≠ identityPt C

end AuthInitRequest

namespace AuthInitResponse

/-- Modelled from the spec: §4.4/§6 deterministic serialization of
`AuthInitResponse` (`to_json` in `messages.py`, missing). -/
def to_json (C : OwlCtx) (m : AuthInitResponse C) : WireMsg :=
  [("X3", .num m.X3.val), ("X4", .num m.X4.val), ("beta", .num m.beta.val),
   ("PI3.h", .num m.PI3.h.val), ("PI3.r", .num m.PI3.r.val),
   ("PI3.b", .num m.PI3.b.val),
   ("PI4.h", .num m.PI4.h.val), ("PI4.r", .num m.PI4.r.val),
   ("PI4.b", .num m.PI4.b.val),
   ("PIbeta.h", .num m.PIbeta.h.val), ("PIbeta.r", .num m.PIbeta.r.val),
   ("PIbeta.b", .num m.PIbeta.b.val)]

/-- Modelled from the spec: §4.4 deserialization of `AuthInitResponse`
(`deserialize` in `messages.py`, missing). -/
def deserialize (C : OwlCtx) (w : WireMsg) :
    Except DeserializationError (AuthInitResponse C) :=
  match w with
  | [(f1, .num a3), (f2, .num a4), (f3, .num bt), (f4, .num h3),
     (f5, .num r3), (f6, .num b3), (f7, .num h4), (f8, .num r4),
     (f9, .num b4), (f10, .num hb), (f11, .num rb), (f12, .num bb)] =>
    if f1 = "X3" ∧ f2 = "X4" ∧ f3 = "beta" ∧ f4 = "PI3.h" ∧ f5 = "PI3.r"
        ∧ f6 = "PI3.b" ∧ f7 = "PI4.h" ∧ f8 = "PI4.r" ∧ f9 = "PI4.b"
        ∧ f10 = "PIbeta.h" ∧ f11 = "PIbeta.r" ∧ f12 = "PIbeta.b" then
      if a3 < C.n ∧ 0 < a3 ∧ a4 < C.n ∧ 0 < a4 ∧ bt < C.n ∧ 0 < bt
          ∧ h3 < C.n ∧ r3 < C.n ∧ b3 < C.n ∧ 0 < b3
          ∧ h4 < C.n ∧ r4 < C.n ∧ b4 < C.n ∧ 0 < b4
          ∧ hb < C.n ∧ rb < C.n ∧ bb < C.n ∧ 0 < bb then
        .ok ⟨(a3 : ZMod C.n), (a4 : ZMod C.n), (bt : ZMod C.n),
             ⟨(h3 : ZMod C.n), (r3 : ZMod C.n), (b3 : ZMod C.n)⟩,
             ⟨(h4 : ZMod C.n), (r4 : ZMod C.n), (b4 : ZMod C.n)⟩,
             ⟨(hb : ZMod C.n), (rb : ZMod C.n), (bb : ZMod C.n)⟩⟩
      else
        .error .validationError
    else
      .error .structuralError
  | _ => .error .structuralError

/-- The validity invariant §3 imposes on an in-flight `AuthInitResponse`. -/
abbrev wf (C : OwlCtx) (m : AuthInitResponse C) : Prop :=
  m.X3 ≠ identityPt C ∧ m.X4 ≠ identityPt C ∧ m.beta ≠ identityPt C
    ∧ m.PI3.b ≠ identityPt C ∧ m.PI4.b ≠ identityPt C
    ∧ m.PIbeta.b ≠ identityPt C

end AuthInitResponse

namespace AuthInitialValues

/-- Modelled from the spec: §4.4/§6 deterministic serialization of the
persisted `AuthInitialValues` (`to_json` in `messages.py`, missing). -/
def to_json (C : OwlCtx) (m : AuthInitialValues C) : WireMsg :=
  [("beta", .num m.beta.val), ("X1", .num m.X1.val), ("X2", .num m.X2.val),
   ("X3", .num m.X3.val), ("X4", .num m.X4.val), ("pi", .num m.pi.val),
   ("x4", .num m.x4.val)]

/-- Modelled from the spec: §4.4 deserialization of `AuthInitialValues`
(`deserialize` in `messages.py`, missing). -/
def deserialize (C : OwlCtx) (w : WireMsg) :
    Except DeserializationError (AuthInitialValues C) :=
  match w with
  | [(f1, .num bt), (f2, .num a1), (f3, .num a2), (f4, .num a3),
     (f5, .num a4), (f6, .num p), (f7, .num s4)] =>
    if f1 = "beta" ∧ f2 = "X1" ∧ f3 = "X2" ∧ f4 = "X3" ∧ f5 = "X4"
        ∧ f6 = "pi" ∧ f7 = "x4" then
      if bt < C.n ∧ 0 < bt ∧ a1 < C.n ∧ 0 < a1 ∧ a2 < C.n ∧ 0 < a2
          ∧ a3 < C.n ∧ 0 < a3 ∧ a4 < C.n ∧ 0 < a4
          ∧ p < C.n ∧ 0 < p ∧ s4 < C.n ∧ 0 < s4 then
        .ok ⟨(bt : ZMod C.n), (a1 : ZMod C.n), (a2 : ZMod C.n),
             (a3 : ZMod C.n), (a4 : ZMod C.n), (p : ZMod C.n),
             (s4 : ZMod C.n)⟩
      else
        .error .validationError
    else
      .error .structuralError
  | _ => .error .structuralError

/-- The validity invariant §3 imposes on stored `AuthInitialValues`. -/
abbrev wf (C : OwlCtx) (m : AuthInitialValues C) : Prop :=
  m.beta ≠ identityPt C ∧ m.X1 ≠ identityPt C ∧ m.X2 ≠ identityPt C
    ∧ m.X3 ≠ identityPt C ∧ m.X4 ≠ identityPt C ∧ m.pi ≠ 0 ∧ m.x4 ≠ 0

end AuthInitialValues

namespace AuthFinishRequest

/-- Modelled from the spec: §4.4/§6 deterministic serialization of
`AuthFinishRequest` (`to_json` in `messages.py`, missing); the tag `kc` is
a byte string. -/
def to_json (C : OwlCtx) (m : AuthFinishRequest C) : WireMsg :=
  [("alpha", .num m.alpha.val),
   ("PIalpha.h", .num m.PIalpha.h.val), ("PIalpha.r", .num m.PIalpha.r.val),
   ("PIalpha.b", .num m.PIalpha.b.val),
   ("r", .num m.r.val), ("kc", .bytes m.kc)]

/-- Modelled from the spec: §4.4 deserialization of `AuthFinishRequest`
(`deserialize` in `messages.py`, missing); the byte string `kc` is kept
opaque. -/
def deserialize (C : OwlCtx) (w : WireMsg) :
    Except DeserializationError (AuthFinishRequest C) :=
  match w with
  | [(f1, .num al), (f2, .num ha), (f3, .num ra), (f4, .num ba),
     (f5, .num rv), (f6, .bytes kc)] =>
    if f1 = "alpha" ∧ f2 = "PIalpha.h" ∧ f3 = "PIalpha.r"
        ∧ f4 = "PIalpha.b" ∧ f5 = "r" ∧ f6 = "kc" then
      if al < C.n ∧ 0 < al ∧ ha < C.n ∧ ra < C.n ∧ ba < C.n ∧ 0 < ba
          ∧ rv < C.n then
        .ok ⟨(al : ZMod C.n),
             ⟨(ha : ZMod C.n), (ra : ZMod C.n), (ba : ZMod C.n)⟩,
             (rv : ZMod C.n), kc⟩
      else
        .error .validationError
    else
      .error .structuralError
  | _ => .error .structuralError

/-- The validity invariant §3 imposes on an in-flight
`AuthFinishRequest`. -/
abbrev wf (C : OwlCtx) (m : AuthFinishRequest C) : Prop :=
  m.alpha ≠ identityPt C ∧ m.PIalpha.b ≠ identityPt C

end AuthFinishRequest

/-- Modelled from the example interface: the structured result of
`OwlClient.login` (`owl_client.py` is missing from the snapshot; the spec
§5 contract is that operations return a result or a typed failure, and
`examplesimplified.py` reads the fields `success`, `key` and `error`). -/
structure LoginResult where
  success : Bool
  key : Option (List ℕ)
  error : Option String
deriving DecidableEq

namespace OwlClient

/-- Modelled from the spec and the example interface: `OwlClient.login
(username, password, send_init, send_finish)` (`owl_client.py` is missing
from the snapshot).  The spec is silent on `login`; the model is the
evident composition forced by the protocol and by `examplesimplified.py`:
run `authInit`, send the serialized request through `send_init` (a `none`
answer — user unknown or server rejection — fails the login), deserialize
the response, run `authFinish` (a failure variant fails the login), send
the serialized finish request through `send_finish` (a `none` answer fails
the login), and otherwise succeed with the derived key.  Per the §5
contract it returns a structured result and never raises. -/
def login (C : OwlCtx) (username password : String)
    (x1 x2 v1 v2 vAlpha : Scal C)
    (sendInit : WireMsg → Option WireMsg)
    (sendFinish : WireMsg → Option String) : LoginResult :=
  let ai := authInit C username password x1 x2 v1 v2
  match sendInit (AuthInitRequest.to_json C ai.1) with
  | none => ⟨false, none, some "authInit was rejected"⟩
  | some w =>
    match AuthInitResponse.deserialize C w with
    | .error _ => ⟨false, none, some "bad AuthInitResponse"⟩
    | .ok resp =>
      match authFinish C ai.2 resp vAlpha with
      | (.success out, _) =>
        match sendFinish (AuthFinishRequest.to_json C out.finishRequest) with
        | none => ⟨false, none, some "authFinish was rejected"⟩
        | some _ => ⟨true, some out.key, none⟩
      | _ => ⟨false, none, some "client authFinish failed"⟩

end OwlClient

/-- The transcript the client hashes in `authFinish` (§4.5.1 step 6),
expressed in the session state and the received response. -/
def clientTrace (C : OwlCtx) (s : ClientSession C) (resp : AuthInitResponse C) :
    List ℕ :=
  transcript C s.username s.X1 s.X2 resp.X3 resp.X4 resp.beta
    (pexp C (pmul C (pmul C s.X1 resp.X3) resp.X4) (s.x2 * s.pi))

/-- The session key the client derives in `authFinish` (§4.5.1 step 6). -/
def clientSessionKey (C : OwlCtx) (s : ClientSession C)
    (resp : AuthInitResponse C) : List ℕ :=
  C.kdf (clientK C resp.beta resp.X4 s.x2 s.pi).val (clientTrace C s resp)

/-- The transcript the server hashes in `authFinish` (§4.5.2 step 2). -/
def serverTrace (C : OwlCtx) (username : String) (req : AuthFinishRequest C)
    (init : AuthInitialValues C) : List ℕ :=
  transcript C username init.X1 init.X2 init.X3 init.X4 init.beta req.alpha

/-- The session key the server derives in `authFinish` (§4.5.2 step 2). -/
def serverSessionKey (C : OwlCtx) (username : String)
    (req : AuthFinishRequest C) (init : AuthInitialValues C) : List ℕ :=
  C.kdf (serverK C req.alpha init.X2 init.x4 init.pi).val
    (serverTrace C username req init)

/-- A small concrete context used to evaluate the theorems on explicit
inputs: the group of prime order `11`, a polynomial mixing hash, a
key-derivation function and a confirmation MAC that are injective in the
shared-secret argument. -/
abbrev Wctx : OwlCtx where
  n := 11
  serverId := "s"
  Hs := fun dom items => dom.length
    + items.foldl (fun a x => a * 13 + x + 1) 0
  kdf := fun k t => k :: t
  kcTag := fun key tag t => encStr tag :: (key ++ t)

/-! ## Lemmas about the embedded definitions -/

/-- Completeness of the Schnorr proof: an honestly generated proof verifies
under the same base and prover id, provided the public point `b = base^x`
is not the identity. -/
theorem zkp_generate_verify (C : OwlCtx) (x base v : Scal C) (pid : String)
    (hb : x * base ≠ 0) :
    ZKP.verify C (ZKP.generate C x base pid v) base pid = true := by
  have key : ∀ h : Scal C, (v - x * h) * base + h * (x * base) = v * base := by
    intro h; ring
  simp only [ZKP.verify, ZKP.generate, pmul, pexp, identityPt]
  simp only [key]
  simp [hb]

/-- A fold of nonnegative summands is zero iff the seed and all summands
are zero. -/
theorem foldl_add_eq_zero_iff (l : List ℕ) (a : ℕ) :
    l.foldl (· + ·) a = 0 ↔ a = 0 ∧ ∀ x ∈ l, x = 0 := by
  induction l generalizing a with
  | nil => simp
  | cons y t ih =>
    simp only [List.foldl_cons, ih, List.mem_cons]
    constructor
    · rintro ⟨h, hall⟩
      refine ⟨by omega, ?_⟩
      intro x hx
      rcases hx with rfl | hx
      · omega
      · exact hall x hx
    · rintro ⟨ha, hall⟩
      have hy : y = 0 := hall y (Or.inl rfl)
      exact ⟨by omega, fun x hx => hall x (Or.inr hx)⟩

/-- The constant-time comparison accepts exactly when the two byte strings
are equal. -/
theorem verifyKeyConfirmation_eq_true_iff (a b : List ℕ) :
    OwlCommon.verifyKeyConfirmation a b = true ↔ a = b := by
  induction a generalizing b with
  | nil =>
    cases b with
    | nil => simp [OwlCommon.verifyKeyConfirmation, OwlCommon.ctDiffCount]
    | cons y t => simp [OwlCommon.verifyKeyConfirmation]
  | cons x xs ih =>
    cases b with
    | nil => simp [OwlCommon.verifyKeyConfirmation]
    | cons y ys =>
      by_cases hxy : x = y
      · subst hxy
        have h1 : OwlCommon.verifyKeyConfirmation (x :: xs) (x :: ys)
            = OwlCommon.verifyKeyConfirmation xs ys := by
          simp [OwlCommon.verifyKeyConfirmation, OwlCommon.ctDiffCount]
        rw [h1, ih]
        simp
      · simp [OwlCommon.verifyKeyConfirmation, OwlCommon.ctDiffCount, hxy,
          foldl_add_eq_zero_iff]

/-- The comparison of a tag with itself accepts. -/
theorem verifyKeyConfirmation_self (a : List ℕ) :
    OwlCommon.verifyKeyConfirmation a a = true :=
  (verifyKeyConfirmation_eq_true_iff a a).mpr rfl

/-- The instrumented fold agrees with the plain fold and its step count is
the length of the traversed list. -/
theorem foldl_count_spec (l : List ℕ) (a c : ℕ) :
    l.foldl (fun p d => (p.1 + d, p.2 + 1)) (a, c)
      = (l.foldl (· + ·) a, c + l.length) := by
  induction l generalizing a c with
  | nil => simp
  | cons y t ih =>
    simp only [List.foldl_cons, ih, List.length_cons, Prod.mk.injEq]
    exact ⟨trivial, by omega⟩

/-- The byte-comparison cost of the key-confirmation check is exactly one
step per traversed position: `min` of the two lengths, independent of the
byte contents. -/
theorem ctScanCount_spec (a b : List ℕ) :
    OwlCommon.ctScanCount a b
      = (OwlCommon.ctDiffCount a b, min a.length b.length) := by
  simp only [OwlCommon.ctScanCount, OwlCommon.ctDiffCount, foldl_count_spec,
    List.length_zipWith, Nat.zero_add]

/-- Evaluation of server `authInit` when the two client proofs verify and
`X1·X2` is not the identity: the response and per-session values are as
§4.5.2 prescribes. -/
theorem serverAuthInit_eq (C : OwlCtx) (u : String) (req : AuthInitRequest C)
    (creds : UserCredentials C) (x3 x4 v3 v4 vb : Scal C)
    (h1 : ZKP.verify C req.PI1 (gG C) u = true)
    (h2 : ZKP.verify C req.PI2 (gG C) u = true)
    (h3 : pmul C req.X1 req.X2 ≠ identityPt C) :
    OwlServer.authInit C u req creds x3 x4 v3 v4 vb = .success
      ⟨⟨pexp C (gG C) x3, pexp C (gG C) x4,
        pexp C (pmul C (pmul C req.X1 req.X2) (pexp C (gG C) x3))
          (x4 * creds.pi),
        ZKP.generate C x3 (gG C) C.serverId v3,
        ZKP.generate C x4 (gG C) C.serverId v4,
        ZKP.generate C (x4 * creds.pi)
          (pmul C (pmul C req.X1 req.X2) (pexp C (gG C) x3)) C.serverId vb⟩,
       ⟨pexp C (pmul C (pmul C req.X1 req.X2) (pexp C (gG C) x3))
          (x4 * creds.pi),
        req.X1, req.X2, pexp C (gG C) x3, pexp C (gG C) x4, creds.pi, x4⟩⟩ := by
  simp only [OwlServer.authInit]
  rw [if_pos ⟨h1, h2, h3⟩]

/-- Evaluation of client `authFinish` in state `InitSent` when the three
server proofs verify and `X3`, `X4` are not the identity: the finish
request and the session output are as §4.5.1 prescribes. -/
theorem clientAuthFinish_eq (C : OwlCtx) (s : ClientSession C)
    (resp : AuthInitResponse C) (va : Scal C)
    (h3 : ZKP.verify C resp.PI3 (gG C) C.serverId = true)
    (h4 : ZKP.verify C resp.PI4 (gG C) C.serverId = true)
    (hb : ZKP.verify C resp.PIbeta (pmul C (pmul C s.X1 s.X2) resp.X3)
        C.serverId = true)
    (hX3 : resp.X3 ≠ identityPt C) (hX4 : resp.X4 ≠ identityPt C) :
    OwlClient.authFinish C (.initSent s) resp va = (.success
      ⟨⟨pexp C (pmul C (pmul C s.X1 resp.X3) resp.X4) (s.x2 * s.pi),
        ZKP.generate C (s.x2 * s.pi) (pmul C (pmul C s.X1 resp.X3) resp.X4)
          s.username va,
        s.x1 - s.pi * hashToScalar C "H_PW" [encStr s.password],
        C.kcTag (clientSessionKey C s resp) "KC_1_U" (clientTrace C s resp)⟩,
       clientSessionKey C s resp,
       C.kcTag (clientSessionKey C s resp) "KC_1_U" (clientTrace C s resp),
       C.kcTag (clientSessionKey C s resp) "KC_1_V" (clientTrace C s resp)⟩,
      .done) := by
  simp only [OwlClient.authFinish]
  rw [if_pos ⟨h3, h4, hb, hX3, hX4⟩]
  rfl

/-- Evaluation of server `authFinish` when `PIalpha` verifies: the result
is the session output if the received tag matches the expectation in
constant time, and `AuthenticationFailure` otherwise (§4.5.2 steps 2-4). -/
theorem serverAuthFinish_eq (C : OwlCtx) (u : String)
    (req : AuthFinishRequest C) (init : AuthInitialValues C)
    (h : ZKP.verify C req.PIalpha (pmul C (pmul C init.X1 init.X3) init.X4)
        u = true) :
    OwlServer.authFinish C u req init =
      (if OwlCommon.verifyKeyConfirmation req.kc
            (C.kcTag (serverSessionKey C u req init) "KC_1_U"
              (serverTrace C u req init)) = true then
        .success ⟨serverSessionKey C u req init,
          C.kcTag (serverSessionKey C u req init) "KC_1_V"
            (serverTrace C u req init),
          C.kcTag (serverSessionKey C u req init) "KC_1_U"
            (serverTrace C u req init)⟩
      else
        .AuthenticationFailure) := by
  simp only [OwlServer.authFinish]
  rw [if_pos h]
  rfl

/-- The key-derivation identity of Owl: with `Xi = G^xi`,
`beta = (X1·X2·X3)^(x4·pi)` and `alpha = (X1·X3·X4)^(x2·pi)`, the client
secret `(beta / X4^(x2·pi))^x2` and the server secret
`(alpha / X2^(x4·pi))^x4` are the same group element, namely
`G^((x1+x3)·x2·x4·pi)`. -/
theorem K_agreement (C : OwlCtx) (x1 x2 x3 x4 pi : Scal C) :
    clientK C
        (pexp C (pmul C (pmul C (pexp C (gG C) x1) (pexp C (gG C) x2))
          (pexp C (gG C) x3)) (x4 * pi))
        (pexp C (gG C) x4) x2 pi
      = serverK C
        (pexp C (pmul C (pmul C (pexp C (gG C) x1) (pexp C (gG C) x3))
          (pexp C (gG C) x4)) (x2 * pi))
        (pexp C (gG C) x2) x4 pi
    ∧ clientK C
        (pexp C (pmul C (pmul C (pexp C (gG C) x1) (pexp C (gG C) x2))
          (pexp C (gG C) x3)) (x4 * pi))
        (pexp C (gG C) x4) x2 pi
      = pexp C (gG C) ((x1 + x3) * x2 * x4 * pi) := by
  constructor
  · simp only [clientK, serverK, pexp, pmul, pinv, gG]
    ring
  · simp only [clientK, serverK, pexp, pmul, pinv, gG]
    ring

/-- Server `authFinish` accepts when `PIalpha` verifies and the received
tag equals the computed expectation. -/
theorem serverFinish_accepts (C : OwlCtx) (u : String)
    (req : AuthFinishRequest C) (init : AuthInitialValues C)
    (hver : ZKP.verify C req.PIalpha
        (pmul C (pmul C init.X1 init.X3) init.X4) u = true)
    (hkc : req.kc = C.kcTag (serverSessionKey C u req init) "KC_1_U"
        (serverTrace C u req init)) :
    OwlServer.authFinish C u req init = .success
      ⟨serverSessionKey C u req init,
       C.kcTag (serverSessionKey C u req init) "KC_1_V"
         (serverTrace C u req init),
       C.kcTag (serverSessionKey C u req init) "KC_1_U"
         (serverTrace C u req init)⟩ := by
  rw [serverAuthFinish_eq C u req init hver, hkc,
    if_pos (verifyKeyConfirmation_self _)]

/-- The complete honest protocol run: registration, both `authInit`s and
both `authFinish`es succeed, and the two parties derive the same session
key and mutually verifying confirmation tags.  The hypotheses exclude the
degenerate random draws (each an event of probability at most `1/n`) and
the degenerate password hashes. -/
theorem honest_flow_spec (C : OwlCtx) (hp : C.n.Prime) (u pw : String)
    (x1 x2 x3 x4 x3r v1 v2 v3 v4 vb va : Scal C)
    (ht : tOf C u pw ≠ 0) (hpi : piOf C u pw ≠ 0)
    (hx1 : x1 ≠ 0) (hx2 : x2 ≠ 0) (hx3 : x3 ≠ 0) (hx4 : x4 ≠ 0)
    (h12 : x1 + x2 ≠ 0) (h123 : x1 + x2 + x3 ≠ 0) (h134 : x1 + x3 + x4 ≠ 0) :
    ∃ (creds : UserCredentials C) (ir : ServerInitOk C)
      (co : ClientFinishOutput C) (so : SessionOutput),
      OwlServer.register C (OwlClient.register C u pw) x3r = some creds
      ∧ OwlServer.authInit C u (OwlClient.authInit C u pw x1 x2 v1 v2).1
          creds x3 x4 v3 v4 vb = .success ir
      ∧ OwlClient.authFinish C (OwlClient.authInit C u pw x1 x2 v1 v2).2
          ir.response va = (.success co, .done)
      ∧ OwlServer.authFinish C u co.finishRequest ir.initial = .success so
      ∧ co.key = so.key ∧ co.kcTest = so.kc ∧ so.kcTest = co.kc
      ∧ OwlCommon.verifyKeyConfirmation co.kcTest so.kc = true
      ∧ OwlCommon.verifyKeyConfirmation so.kcTest co.kc = true := by
  haveI : Fact C.n.Prime := ⟨hp⟩
  let piR : Scal C := piOf C u pw
  let T1 : Pt C := pexp C (gG C) x1
  let T2 : Pt C := pexp C (gG C) x2
  let T3 : Pt C := pexp C (gG C) x3
  let T4 : Pt C := pexp C (gG C) x4
  let BB : Pt C := pmul C (pmul C T1 T2) T3
  let BA : Pt C := pmul C (pmul C T1 T3) T4
  let BE : Pt C := pexp C BB (x4 * piR)
  let AE : Pt C := pexp C BA (x2 * piR)
  let credsL : UserCredentials C :=
    ⟨pexp C (gG C) x3r, piR, pexp C (gG C) (tOf C u pw)⟩
  let sL : ClientSession C := ⟨u, pw, piR, x1, x2, T1, T2⟩
  let respL : AuthInitResponse C :=
    ⟨T3, T4, BE, ZKP.generate C x3 (gG C) C.serverId v3,
     ZKP.generate C x4 (gG C) C.serverId v4,
     ZKP.generate C (x4 * piR) BB C.serverId vb⟩
  let initL : AuthInitialValues C := ⟨BE, T1, T2, T3, T4, piR, x4⟩
  let irL : ServerInitOk C := ⟨respL, initL⟩
  let trC : List ℕ := clientTrace C sL respL
  let skC : List ℕ := clientSessionKey C sL respL
  let frL : AuthFinishRequest C :=
    ⟨AE, ZKP.generate C (x2 * piR) BA u va,
     x1 - piR * hashToScalar C "H_PW" [encStr pw],
     C.kcTag skC "KC_1_U" trC⟩
  let coL : ClientFinishOutput C :=
    ⟨frL, skC, C.kcTag skC "KC_1_U" trC, C.kcTag skC "KC_1_V" trC⟩
  let trS : List ℕ := serverTrace C u frL initL
  let skS : List ℕ := serverSessionKey C u frL initL
  let soL : SessionOutput :=
    ⟨skS, C.kcTag skS "KC_1_V" trS, C.kcTag skS "KC_1_U" trS⟩
  have hreg : OwlServer.register C (OwlClient.register C u pw) x3r
      = some credsL := by
    simp only [OwlClient.register, OwlServer.register]
    rw [if_pos (show pexp C (gG C) (tOf C u pw) ≠ identityPt C
        ∧ piOf C u pw ≠ 0 from
      ⟨by simpa [pexp, gG, identityPt] using ht, hpi⟩)]
  have hsi : OwlServer.authInit C u (OwlClient.authInit C u pw x1 x2 v1 v2).1
      credsL x3 x4 v3 v4 vb = .success irL :=
    serverAuthInit_eq C u _ credsL x3 x4 v3 v4 vb
      (zkp_generate_verify C x1 (gG C) v1 u (by simpa [gG] using hx1))
      (zkp_generate_verify C x2 (gG C) v2 u (by simpa [gG] using hx2))
      (by simpa [OwlClient.authInit, pmul, pexp, gG, identityPt] using h12)
  have hbnz : (x4 * piOf C u pw)
      * pmul C (pmul C (pexp C (gG C) x1) (pexp C (gG C) x2))
        (pexp C (gG C) x3) ≠ 0 := by
    simpa [pmul, pexp, gG] using mul_ne_zero (mul_ne_zero hx4 hpi) h123
  have hanz : (x2 * piOf C u pw)
      * pmul C (pmul C (pexp C (gG C) x1) (pexp C (gG C) x3))
        (pexp C (gG C) x4) ≠ 0 := by
    simpa [pmul, pexp, gG] using mul_ne_zero (mul_ne_zero hx2 hpi) h134
  have hcf : OwlClient.authFinish C (OwlClient.authInit C u pw x1 x2 v1 v2).2
      respL va = (.success coL, .done) :=
    clientAuthFinish_eq C sL respL va
      (zkp_generate_verify C x3 (gG C) v3 C.serverId (by simpa [gG] using hx3))
      (zkp_generate_verify C x4 (gG C) v4 C.serverId (by simpa [gG] using hx4))
      (zkp_generate_verify C (x4 * piOf C u pw) _ vb C.serverId hbnz)
      (by show pexp C (gG C) x3 ≠ identityPt C
          simpa [pexp, gG, identityPt] using hx3)
      (by show pexp C (gG C) x4 ≠ identityPt C
          simpa [pexp, gG, identityPt] using hx4)
  have htr2 : trC = trS := rfl
  have hsk2 : skC = skS := by
    show clientSessionKey C sL respL = serverSessionKey C u frL initL
    have hK : clientK C respL.beta respL.X4 sL.x2 sL.pi
        = serverK C frL.alpha initL.X2 initL.x4 initL.pi :=
      (K_agreement C x1 x2 x3 x4 (piOf C u pw)).1
    simp only [clientSessionKey, serverSessionKey]
    rw [hK]
    rfl
  have hsf : OwlServer.authFinish C u frL initL = .success soL :=
    serverFinish_accepts C u frL initL
      (zkp_generate_verify C (x2 * piOf C u pw) _ va u hanz)
      (by show C.kcTag skC "KC_1_U" trC = C.kcTag skS "KC_1_U" trS
          rw [hsk2, htr2])
  have hkc1 : coL.kcTest = soL.kc := by
    show C.kcTag skC "KC_1_V" trC = C.kcTag skS "KC_1_V" trS
    rw [hsk2, htr2]
  have hkc2 : soL.kcTest = coL.kc := by
    show C.kcTag skS "KC_1_U" trS = C.kcTag skC "KC_1_U" trC
    rw [hsk2, htr2]
  refine ⟨credsL, irL, coL, soL, hreg, hsi, hcf, hsf, hsk2, hkc1, hkc2, ?_, ?_⟩
  · rw [hkc1]
    exact verifyKeyConfirmation_self _
  · rw [hkc2]
    exact verifyKeyConfirmation_self _

/-- When the two sides use different password scalars `piA ≠ piB` and the
random draws avoid the degenerate event `x1+x2+x3+x4 = 0`, the two derived
group elements differ: their difference is
`G^(x2·x4·(x1+x2+x3+x4)·(piA−piB))`, which is not the identity. -/
theorem K_mismatch (C : OwlCtx) (hp : C.n.Prime) (x1 x2 x3 x4 piA piB : Scal C)
    (hx2 : x2 ≠ 0) (hx4 : x4 ≠ 0) (hsum : x1 + x2 + x3 + x4 ≠ 0)
    (hne : piA ≠ piB) :
    clientK C
        (pexp C (pmul C (pmul C (pexp C (gG C) x1) (pexp C (gG C) x2))
          (pexp C (gG C) x3)) (x4 * piA))
        (pexp C (gG C) x4) x2 piB
      ≠ serverK C
        (pexp C (pmul C (pmul C (pexp C (gG C) x1) (pexp C (gG C) x3))
          (pexp C (gG C) x4)) (x2 * piB))
        (pexp C (gG C) x2) x4 piA := by
  haveI : Fact C.n.Prime := ⟨hp⟩
  intro h
  simp only [clientK, serverK, pexp, pmul, pinv, gG] at h
  have hz : x2 * x4 * (x1 + x2 + x3 + x4) * (piA - piB) = 0 := by
    linear_combination h
  have hnz : x2 * x4 * (x1 + x2 + x3 + x4) * (piA - piB) ≠ 0 :=
    mul_ne_zero (mul_ne_zero (mul_ne_zero hx2 hx4) hsum)
      (sub_ne_zero.mpr hne)
  exact hnz hz

/-- The protocol run in which the password was registered as `pwA` but the
client authenticates with `pwB`: when the derived password scalars differ,
all ZKP checks still pass (they prove knowledge of the ephemeral scalars,
not password correctness), and the run is rejected exactly at the server's
constant-time key-confirmation comparison, with `AuthenticationFailure`.
The hypotheses exclude the degenerate random draws (each an event of
probability at most `1/n`); `htag` says the key-confirmation tag separates
different shared secrets (collision-freeness of `KC ∘ KDF` in the secret,
which holds with overwhelming probability for the real hash). -/
theorem wrong_pw_flow_spec (C : OwlCtx) (hp : C.n.Prime) (u pwA pwB : String)
    (x1 x2 x3 x4 x3r v1 v2 v3 v4 vb va : Scal C)
    (ht : tOf C u pwA ≠ 0) (hpiA : piOf C u pwA ≠ 0) (hpiB : piOf C u pwB ≠ 0)
    (hne : piOf C u pwA ≠ piOf C u pwB)
    (hx1 : x1 ≠ 0) (hx2 : x2 ≠ 0) (hx3 : x3 ≠ 0) (hx4 : x4 ≠ 0)
    (h12 : x1 + x2 ≠ 0) (h123 : x1 + x2 + x3 ≠ 0) (h134 : x1 + x3 + x4 ≠ 0)
    (hsum : x1 + x2 + x3 + x4 ≠ 0)
    (htag : ∀ k k' : ℕ, ∀ t : List ℕ, k ≠ k' →
      C.kcTag (C.kdf k t) "KC_1_U" t ≠ C.kcTag (C.kdf k' t) "KC_1_U" t) :
    ∃ (creds : UserCredentials C) (ir : ServerInitOk C)
      (co : ClientFinishOutput C),
      OwlServer.register C (OwlClient.register C u pwA) x3r = some creds
      ∧ OwlServer.authInit C u (OwlClient.authInit C u pwB x1 x2 v1 v2).1
          creds x3 x4 v3 v4 vb = .success ir
      ∧ OwlClient.authFinish C (OwlClient.authInit C u pwB x1 x2 v1 v2).2
          ir.response va = (.success co, .done)
      ∧ OwlServer.authFinish C u co.finishRequest ir.initial
          = .AuthenticationFailure := by
  haveI : Fact C.n.Prime := ⟨hp⟩
  haveI : NeZero C.n := ⟨hp.ne_zero⟩
  let piR : Scal C := piOf C u pwA
  let piL : Scal C := piOf C u pwB
  let T1 : Pt C := pexp C (gG C) x1
  let T2 : Pt C := pexp C (gG C) x2
  let T3 : Pt C := pexp C (gG C) x3
  let T4 : Pt C := pexp C (gG C) x4
  let BB : Pt C := pmul C (pmul C T1 T2) T3
  let BA : Pt C := pmul C (pmul C T1 T3) T4
  let BE : Pt C := pexp C BB (x4 * piR)
  let AE : Pt C := pexp C BA (x2 * piL)
  let credsL : UserCredentials C :=
    ⟨pexp C (gG C) x3r, piR, pexp C (gG C) (tOf C u pwA)⟩
  let sL : ClientSession C := ⟨u, pwB, piL, x1, x2, T1, T2⟩
  let respL : AuthInitResponse C :=
    ⟨T3, T4, BE, ZKP.generate C x3 (gG C) C.serverId v3,
     ZKP.generate C x4 (gG C) C.serverId v4,
     ZKP.generate C (x4 * piR) BB C.serverId vb⟩
  let initL : AuthInitialValues C := ⟨BE, T1, T2, T3, T4, piR, x4⟩
  let irL : ServerInitOk C := ⟨respL, initL⟩
  let trC : List ℕ := clientTrace C sL respL
  let skC : List ℕ := clientSessionKey C sL respL
  let frL : AuthFinishRequest C :=
    ⟨AE, ZKP.generate C (x2 * piL) BA u va,
     x1 - piL * hashToScalar C "H_PW" [encStr pwB],
     C.kcTag skC "KC_1_U" trC⟩
  let coL : ClientFinishOutput C :=
    ⟨frL, skC, C.kcTag skC "KC_1_U" trC, C.kcTag skC "KC_1_V" trC⟩
  have hreg : OwlServer.register C (OwlClient.register C u pwA) x3r
      = some credsL := by
    simp only [OwlClient.register, OwlServer.register]
    rw [if_pos (show pexp C (gG C) (tOf C u pwA) ≠ identityPt C
        ∧ piOf C u pwA ≠ 0 from
      ⟨by simpa [pexp, gG, identityPt] using ht, hpiA⟩)]
  have hsi : OwlServer.authInit C u
      (OwlClient.authInit C u pwB x1 x2 v1 v2).1 credsL x3 x4 v3 v4 vb
      = .success irL :=
    serverAuthInit_eq C u _ credsL x3 x4 v3 v4 vb
      (zkp_generate_verify C x1 (gG C) v1 u (by simpa [gG] using hx1))
      (zkp_generate_verify C x2 (gG C) v2 u (by simpa [gG] using hx2))
      (by simpa [OwlClient.authInit, pmul, pexp, gG, identityPt] using h12)
  have hbnz : (x4 * piOf C u pwA)
      * pmul C (pmul C (pexp C (gG C) x1) (pexp C (gG C) x2))
        (pexp C (gG C) x3) ≠ 0 := by
    simpa [pmul, pexp, gG] using mul_ne_zero (mul_ne_zero hx4 hpiA) h123
  have hanz : (x2 * piOf C u pwB)
      * pmul C (pmul C (pexp C (gG C) x1) (pexp C (gG C) x3))
        (pexp C (gG C) x4) ≠ 0 := by
    simpa [pmul, pexp, gG] using mul_ne_zero (mul_ne_zero hx2 hpiB) h134
  have hcf : OwlClient.authFinish C
      (OwlClient.authInit C u pwB x1 x2 v1 v2).2 respL va
      = (.success coL, .done) :=
    clientAuthFinish_eq C sL respL va
      (zkp_generate_verify C x3 (gG C) v3 C.serverId (by simpa [gG] using hx3))
      (zkp_generate_verify C x4 (gG C) v4 C.serverId (by simpa [gG] using hx4))
      (zkp_generate_verify C (x4 * piOf C u pwA) _ vb C.serverId hbnz)
      (by show pexp C (gG C) x3 ≠ identityPt C
          simpa [pexp, gG, identityPt] using hx3)
      (by show pexp C (gG C) x4 ≠ identityPt C
          simpa [pexp, gG, identityPt] using hx4)
  have hKne : clientK C respL.beta respL.X4 sL.x2 sL.pi
      ≠ serverK C frL.alpha initL.X2 initL.x4 initL.pi :=
    K_mismatch C hp x1 x2 x3 x4 (piOf C u pwA) (piOf C u pwB)
      hx2 hx4 hsum hne
  have hvalne : (clientK C respL.beta respL.X4 sL.x2 sL.pi).val
      ≠ (serverK C frL.alpha initL.X2 initL.x4 initL.pi).val :=
    fun hv => hKne (ZMod.natCast_rightInverse.injective hv)
  have htagne : frL.kc ≠ C.kcTag (serverSessionKey C u frL initL) "KC_1_U"
      (serverTrace C u frL initL) :=
    htag _ _ (clientTrace C sL respL) hvalne
  have hsf : OwlServer.authFinish C u frL initL = .AuthenticationFailure := by
    rw [serverAuthFinish_eq C u frL initL
      (zkp_generate_verify C (x2 * piOf C u pwB) _ va u hanz)]
    rw [if_neg (fun habs =>
      htagne ((verifyKeyConfirmation_eq_true_iff _ _).mp habs))]
  exact ⟨credsL, irL, coL, hreg, hsi, hcf, hsf⟩

/-- Tampering with the response component of an honestly generated Schnorr
proof: if the challenge hash is injective in the recomputed commitment,
any proof with the same `h` and `b` but a different `r` is rejected. -/
theorem zkp_tamper_r (C : OwlCtx) (hp : C.n.Prime) (x base v r' : Scal C)
    (pid : String) (hbase : base ≠ identityPt C)
    (hinj : ∀ V V' : Scal C,
      hashToScalar C "ZKP" [base.val, V.val, (pexp C base x).val, encStr pid]
        = hashToScalar C "ZKP" [base.val, V'.val, (pexp C base x).val,
            encStr pid]
      → V = V')
    (hr' : r' ≠ (ZKP.generate C x base pid v).r) :
    ZKP.verify C ⟨(ZKP.generate C x base pid v).h, r',
      (ZKP.generate C x base pid v).b⟩ base pid = false := by
  haveI : Fact C.n.Prime := ⟨hp⟩
  simp only [ZKP.generate] at hr' ⊢
  simp only [ZKP.verify]
  set H := hashToScalar C "ZKP" [base.val, (pexp C base v).val,
    (pexp C base x).val, encStr pid] with hH
  have hV : pmul C (pexp C base r') (pexp C (pexp C base x) H)
      ≠ pexp C base v := by
    intro heq
    apply hr'
    have h3 := heq
    simp only [pmul, pexp] at h3
    have h2 : (r' - (v - x * H)) * base = 0 := by linear_combination h3
    rcases mul_eq_zero.mp h2 with h0 | h0
    · exact sub_eq_zero.mp h0
    · exact absurd h0 (by simpa [identityPt] using hbase)
  have hne : hashToScalar C "ZKP" [base.val, (pmul C (pexp C base r')
      (pexp C (pexp C base x) H)).val, (pexp C base x).val, encStr pid]
      ≠ H :=
    fun heqh => hV (hinj _ _ (heqh.trans hH))
  simp [hne]

/-- Tampering with the challenge component of an honestly generated Schnorr
proof: if the generated challenge is the only self-consistent challenge at
this commitment equation (no second fixed point of the hash), any proof
with the same `r` and `b` but a different `h` is rejected. -/
theorem zkp_tamper_h (C : OwlCtx) (x base v h' : Scal C) (pid : String)
    (hfix : ∀ t : Scal C, hashToScalar C "ZKP" [base.val,
        (pmul C (pexp C base (ZKP.generate C x base pid v).r)
          (pexp C (ZKP.generate C x base pid v).b t)).val,
        (ZKP.generate C x base pid v).b.val, encStr pid] = t
      → t = (ZKP.generate C x base pid v).h)
    (hh' : h' ≠ (ZKP.generate C x base pid v).h) :
    ZKP.verify C ⟨h', (ZKP.generate C x base pid v).r,
      (ZKP.generate C x base pid v).b⟩ base pid = false := by
  have hne : hashToScalar C "ZKP" [base.val,
      (pmul C (pexp C base (ZKP.generate C x base pid v).r)
        (pexp C (ZKP.generate C x base pid v).b h')).val,
      (ZKP.generate C x base pid v).b.val, encStr pid] ≠ h' :=
    fun heq => hh' (hfix h' heq)
  simp only [ZKP.verify]
  simp [hne]

/-- The key-confirmation tag of the concrete context separates different
shared-secret values: its `KDF` and `KC` are injective in the secret. -/
theorem Wctx_tag_separating : ∀ k k' : ℕ, ∀ t : List ℕ, k ≠ k' →
    Wctx.kcTag (Wctx.kdf k t) "KC_1_U" t
      ≠ Wctx.kcTag (Wctx.kdf k' t) "KC_1_U" t := by
  intro k k' t hkk heq
  apply hkk
  simpa [Wctx] using heq

section Roundtrips

variable (C : OwlCtx)

/-- Round-trip for `RegistrationRequest`. -/
theorem registrationRequest_roundtrip (hn : 0 < C.n)
    (m : RegistrationRequest C) (hm : m.wf C) :
    RegistrationRequest.deserialize C (RegistrationRequest.to_json C m)
      = .ok m := by
  haveI : NeZero C.n := ⟨hn.ne'⟩
  have cast_val : ∀ a : ZMod C.n, ((a.val : ℕ) : ZMod C.n) = a :=
    fun a => ZMod.natCast_rightInverse a
  have vpos : ∀ a : ZMod C.n, a ≠ 0 → 0 < a.val :=
    fun a ha => Nat.pos_of_ne_zero (fun h => ha ((ZMod.val_eq_zero a).mp h))
  obtain ⟨h1, h2⟩ := hm
  simp only [RegistrationRequest.to_json, RegistrationRequest.deserialize]
  rw [if_pos ⟨trivial, trivial, trivial⟩,
    if_pos ⟨ZMod.val_lt m.pi, vpos _ h1, ZMod.val_lt m.T, vpos _ h2⟩]
  simp only [cast_val]

/-- Round-trip for `UserCredentials`. -/
theorem userCredentials_roundtrip (hn : 0 < C.n)
    (m : UserCredentials C) (hm : m.wf C) :
    UserCredentials.deserialize C (UserCredentials.to_json C m) = .ok m := by
  haveI : NeZero C.n := ⟨hn.ne'⟩
  have cast_val : ∀ a : ZMod C.n, ((a.val : ℕ) : ZMod C.n) = a :=
    fun a => ZMod.natCast_rightInverse a
  have vpos : ∀ a : ZMod C.n, a ≠ 0 → 0 < a.val :=
    fun a ha => Nat.pos_of_ne_zero (fun h => ha ((ZMod.val_eq_zero a).mp h))
  obtain ⟨h1, h2, h3⟩ := hm
  simp only [UserCredentials.to_json, UserCredentials.deserialize]
  rw [if_pos ⟨trivial, trivial, trivial⟩,
    if_pos ⟨ZMod.val_lt m.X3, vpos _ h1, ZMod.val_lt m.pi, vpos _ h2,
      ZMod.val_lt m.T, vpos _ h3⟩]
  simp only [cast_val]

/-- Round-trip for `AuthInitRequest`. -/
theorem authInitRequest_roundtrip (hn : 0 < C.n)
    (m : AuthInitRequest C) (hm : m.wf C) :
    AuthInitRequest.deserialize C (AuthInitRequest.to_json C m) = .ok m := by
  haveI : NeZero C.n := ⟨hn.ne'⟩
  have cast_val : ∀ a : ZMod C.n, ((a.val : ℕ) : ZMod C.n) = a :=
    fun a => ZMod.natCast_rightInverse a
  have vpos : ∀ a : ZMod C.n, a ≠ 0 → 0 < a.val :=
    fun a ha => Nat.pos_of_ne_zero (fun h => ha ((ZMod.val_eq_zero a).mp h))
  obtain ⟨h1, h2, h3, h4⟩ := hm
  simp only [AuthInitRequest.to_json, AuthInitRequest.deserialize]
  rw [if_pos ⟨trivial, trivial, trivial, trivial, trivial, trivial, trivial, trivial⟩,
    if_pos ⟨ZMod.val_lt m.X1, vpos _ h1, ZMod.val_lt m.X2, vpos _ h2,
      ZMod.val_lt m.PI1.h, ZMod.val_lt m.PI1.r, ZMod.val_lt m.PI1.b,
      vpos _ h3, ZMod.val_lt m.PI2.h, ZMod.val_lt m.PI2.r,
      ZMod.val_lt m.PI2.b, vpos _ h4⟩]
  simp only [cast_val]

/-- Round-trip for `AuthInitResponse`. -/
theorem authInitResponse_roundtrip (hn : 0 < C.n)
    (m : AuthInitResponse C) (hm : m.wf C) :
    AuthInitResponse.deserialize C (AuthInitResponse.to_json C m)
      = .ok m := by
  haveI : NeZero C.n := ⟨hn.ne'⟩
  have cast_val : ∀ a : ZMod C.n, ((a.val : ℕ) : ZMod C.n) = a :=
    fun a => ZMod.natCast_rightInverse a
  have vpos : ∀ a : ZMod C.n, a ≠ 0 → 0 < a.val :=
    fun a ha => Nat.pos_of_ne_zero (fun h => ha ((ZMod.val_eq_zero a).mp h))
  obtain ⟨h1, h2, h3, h4, h5, h6⟩ := hm
  simp only [AuthInitResponse.to_json, AuthInitResponse.deserialize]
  rw [if_pos ⟨trivial, trivial, trivial, trivial, trivial, trivial, trivial, trivial, trivial, trivial, trivial, trivial⟩,
    if_pos ⟨ZMod.val_lt m.X3, vpos _ h1, ZMod.val_lt m.X4, vpos _ h2,
      ZMod.val_lt m.beta, vpos _ h3, ZMod.val_lt m.PI3.h,
      ZMod.val_lt m.PI3.r, ZMod.val_lt m.PI3.b, vpos _ h4,
      ZMod.val_lt m.PI4.h, ZMod.val_lt m.PI4.r, ZMod.val_lt m.PI4.b,
      vpos _ h5, ZMod.val_lt m.PIbeta.h, ZMod.val_lt m.PIbeta.r,
      ZMod.val_lt m.PIbeta.b, vpos _ h6⟩]
  simp only [cast_val]

/-- Round-trip for `AuthFinishRequest`. -/
theorem authFinishRequest_roundtrip (hn : 0 < C.n)
    (m : AuthFinishRequest C) (hm : m.wf C) :
    AuthFinishRequest.deserialize C (AuthFinishRequest.to_json C m)
      = .ok m := by
  haveI : NeZero C.n := ⟨hn.ne'⟩
  have cast_val : ∀ a : ZMod C.n, ((a.val : ℕ) : ZMod C.n) = a :=
    fun a => ZMod.natCast_rightInverse a
  have vpos : ∀ a : ZMod C.n, a ≠ 0 → 0 < a.val :=
    fun a ha => Nat.pos_of_ne_zero (fun h => ha ((ZMod.val_eq_zero a).mp h))
  obtain ⟨h1, h2⟩ := hm
  simp only [AuthFinishRequest.to_json, AuthFinishRequest.deserialize]
  rw [if_pos ⟨trivial, trivial, trivial, trivial, trivial, trivial⟩,
    if_pos ⟨ZMod.val_lt m.alpha, vpos _ h1, ZMod.val_lt m.PIalpha.h,
      ZMod.val_lt m.PIalpha.r, ZMod.val_lt m.PIalpha.b, vpos _ h2,
      ZMod.val_lt m.r⟩]
  simp only [cast_val]

/-- Round-trip for `AuthInitialValues`. -/
theorem authInitialValues_roundtrip (hn : 0 < C.n)
    (m : AuthInitialValues C) (hm : m.wf C) :
    AuthInitialValues.deserialize C (AuthInitialValues.to_json C m)
      = .ok m := by
  haveI : NeZero C.n := ⟨hn.ne'⟩
  have cast_val : ∀ a : ZMod C.n, ((a.val : ℕ) : ZMod C.n) = a :=
    fun a => ZMod.natCast_rightInverse a
  have vpos : ∀ a : ZMod C.n, a ≠ 0 → 0 < a.val :=
    fun a ha => Nat.pos_of_ne_zero (fun h => ha ((ZMod.val_eq_zero a).mp h))
  obtain ⟨h1, h2, h3, h4, h5, h6, h7⟩ := hm
  simp only [AuthInitialValues.to_json, AuthInitialValues.deserialize]
  rw [if_pos ⟨trivial, trivial, trivial, trivial, trivial, trivial, trivial⟩,
    if_pos ⟨ZMod.val_lt m.beta, vpos _ h1, ZMod.val_lt m.X1, vpos _ h2,
      ZMod.val_lt m.X2, vpos _ h3, ZMod.val_lt m.X3, vpos _ h4,
      ZMod.val_lt m.X4, vpos _ h5, ZMod.val_lt m.pi, vpos _ h6,
      ZMod.val_lt m.x4, vpos _ h7⟩]
  simp only [cast_val]

end Roundtrips

/-! ## The claims -/

/-- C1: for every prime-order group context — the four supported curves
P256, P384, P521 and FourQ each instantiate one — and every username and
password, running `client.register`, `server.register`, `client.authInit`,
`server.authInit`, `client.authFinish` and `server.authFinish` in order
with honest message delivery yields a client output and a server
`SessionOutput` whose `key` fields are equal, and each party's `kcTest`
equals the other party's `kc`, so both key-confirmation tags verify.  The
hypotheses exclude the degenerate random draws and hash outputs (each an
event of probability at most `1/n` over the honest sampling). -/
theorem claim_C1 (C : OwlCtx) (hp : C.n.Prime) (u pw : String)
    (x1 x2 x3 x4 x3r v1 v2 v3 v4 vb va : Scal C)
    (ht : tOf C u pw ≠ 0) (hpi : piOf C u pw ≠ 0)
    (hx1 : x1 ≠ 0) (hx2 : x2 ≠ 0) (hx3 : x3 ≠ 0) (hx4 : x4 ≠ 0)
    (h12 : x1 + x2 ≠ 0) (h123 : x1 + x2 + x3 ≠ 0) (h134 : x1 + x3 + x4 ≠ 0) :
    ∃ (creds : UserCredentials C) (ir : ServerInitOk C)
      (co : ClientFinishOutput C) (so : SessionOutput),
      OwlServer.register C (OwlClient.register C u pw) x3r = some creds
      ∧ OwlServer.authInit C u (OwlClient.authInit C u pw x1 x2 v1 v2).1
          creds x3 x4 v3 v4 vb = .success ir
      ∧ OwlClient.authFinish C (OwlClient.authInit C u pw x1 x2 v1 v2).2
          ir.response va = (.success co, .done)
      ∧ OwlServer.authFinish C u co.finishRequest ir.initial = .success so
      ∧ co.key = so.key ∧ co.kcTest = so.kc ∧ so.kcTest = co.kc
      ∧ OwlCommon.verifyKeyConfirmation co.kcTest so.kc = true
      ∧ OwlCommon.verifyKeyConfirmation so.kcTest co.kc = true :=
  honest_flow_spec C hp u pw x1 x2 x3 x4 x3r v1 v2 v3 v4 vb va
    ht hpi hx1 hx2 hx3 hx4 h12 h123 h134

/-- C1, witness: the full honest flow evaluated in the concrete context of
order 11, with username `u` and password `a`. -/
theorem claim_C1_witness :
    Nat.Prime Wctx.n
    ∧ tOf Wctx "u" "a" ≠ 0
    ∧ piOf Wctx "u" "a" ≠ 0
    ∧ (∃ (creds : UserCredentials Wctx) (ir : ServerInitOk Wctx)
        (co : ClientFinishOutput Wctx) (so : SessionOutput),
        OwlServer.register Wctx (OwlClient.register Wctx "u" "a") 5
          = some creds
        ∧ OwlServer.authInit Wctx "u"
            (OwlClient.authInit Wctx "u" "a" 1 2 1 1).1 creds 3 4 1 1 1
            = .success ir
        ∧ OwlClient.authFinish Wctx (OwlClient.authInit Wctx "u" "a" 1 2 1 1).2
            ir.response 1 = (.success co, .done)
        ∧ OwlServer.authFinish Wctx "u" co.finishRequest ir.initial
            = .success so
        ∧ co.key = so.key ∧ co.kcTest = so.kc ∧ so.kcTest = co.kc
        ∧ OwlCommon.verifyKeyConfirmation co.kcTest so.kc = true
        ∧ OwlCommon.verifyKeyConfirmation so.kcTest co.kc = true) :=
  ⟨by decide, by decide, by decide,
   claim_C1 Wctx (by decide) "u" "a" 1 2 3 4 5 1 1 1 1 1 1 (by decide)
     (by decide) (by decide) (by decide) (by decide) (by decide) (by decide)
     (by decide) (by decide)⟩

/-- C2: registering with one password and running the client with a
different one, the run passes every ZKP check (those prove knowledge of the
ephemeral scalars, not password correctness) and terminates at the server's
key-confirmation comparison with `AuthenticationFailure`; no server
`SessionOutput` is produced, so no pair of outputs with equal keys exists.
The hypotheses are the non-degeneracy of the random draws (including
`x1+x2+x3+x4 ≠ 0`, whose failure — probability `1/n` — would make the two
shared secrets collide), the distinctness of the two derived password
scalars, and the separation of different shared secrets by `KC ∘ KDF`. -/
theorem claim_C2 (C : OwlCtx) (hp : C.n.Prime) (u pwA pwB : String)
    (x1 x2 x3 x4 x3r v1 v2 v3 v4 vb va : Scal C)
    (ht : tOf C u pwA ≠ 0) (hpiA : piOf C u pwA ≠ 0) (hpiB : piOf C u pwB ≠ 0)
    (hne : piOf C u pwA ≠ piOf C u pwB)
    (hx1 : x1 ≠ 0) (hx2 : x2 ≠ 0) (hx3 : x3 ≠ 0) (hx4 : x4 ≠ 0)
    (h12 : x1 + x2 ≠ 0) (h123 : x1 + x2 + x3 ≠ 0) (h134 : x1 + x3 + x4 ≠ 0)
    (hsum : x1 + x2 + x3 + x4 ≠ 0)
    (htag : ∀ k k' : ℕ, ∀ t : List ℕ, k ≠ k' →
      C.kcTag (C.kdf k t) "KC_1_U" t ≠ C.kcTag (C.kdf k' t) "KC_1_U" t) :
    ∃ (creds : UserCredentials C) (ir : ServerInitOk C)
      (co : ClientFinishOutput C),
      OwlServer.register C (OwlClient.register C u pwA) x3r = some creds
      ∧ OwlServer.authInit C u (OwlClient.authInit C u pwB x1 x2 v1 v2).1
          creds x3 x4 v3 v4 vb = .success ir
      ∧ OwlClient.authFinish C (OwlClient.authInit C u pwB x1 x2 v1 v2).2
          ir.response va = (.success co, .done)
      ∧ OwlServer.authFinish C u co.finishRequest ir.initial
          = .AuthenticationFailure
      ∧ ∀ so : SessionOutput,
          OwlServer.authFinish C u co.finishRequest ir.initial
            ≠ .success so := by
  obtain ⟨creds, ir, co, hreg, hsi, hcf, hsf⟩ :=
    wrong_pw_flow_spec C hp u pwA pwB x1 x2 x3 x4 x3r v1 v2 v3 v4 vb va
      ht hpiA hpiB hne hx1 hx2 hx3 hx4 h12 h123 h134 hsum htag
  refine ⟨creds, ir, co, hreg, hsi, hcf, hsf, ?_⟩
  intro so habs
  rw [hsf] at habs
  exact ServerFinishResult.noConfusion habs

/-- C2, witness: registering `u` with password `a` and authenticating with
password `b` in the concrete context of order 11 ends in
`AuthenticationFailure`. -/
theorem claim_C2_witness :
    Nat.Prime Wctx.n
    ∧ piOf Wctx "u" "a" ≠ piOf Wctx "u" "b"
    ∧ (∃ (creds : UserCredentials Wctx) (ir : ServerInitOk Wctx)
        (co : ClientFinishOutput Wctx),
        OwlServer.register Wctx (OwlClient.register Wctx "u" "a") 5
          = some creds
        ∧ OwlServer.authInit Wctx "u"
            (OwlClient.authInit Wctx "u" "b" 1 2 1 1).1 creds 3 4 1 1 1
            = .success ir
        ∧ OwlClient.authFinish Wctx (OwlClient.authInit Wctx "u" "b" 1 2 1 1).2
            ir.response 1 = (.success co, .done)
        ∧ OwlServer.authFinish Wctx "u" co.finishRequest ir.initial
            = .AuthenticationFailure
        ∧ ∀ so : SessionOutput,
            OwlServer.authFinish Wctx "u" co.finishRequest ir.initial
              ≠ .success so) :=
  ⟨by decide, by decide,
   claim_C2 Wctx (by decide) "u" "a" "b" 1 2 3 4 5 1 1 1 1 1 1 (by decide)
     (by decide) (by decide) (by decide) (by decide) (by decide) (by decide)
     (by decide) (by decide) (by decide) (by decide) (by decide)
     Wctx_tag_separating⟩

/-- C3: for every nonzero witness `x` and valid non-identity base point, an
honestly generated Schnorr proof verifies with the matching prover id; and
the generated proof with its `r` component replaced by any other scalar, or
its `h` component replaced by any other scalar, is rejected.  `hinj` and
`hfix` are the regularity properties of the challenge hash at this
transcript (injectivity in the commitment; no second self-consistent
challenge), which hold with overwhelming probability for the real hash. -/
theorem claim_C3 (C : OwlCtx) (hp : C.n.Prime) (x base v : Scal C)
    (pid : String) (hx : x ≠ 0) (hbase : base ≠ identityPt C)
    (hinj : ∀ V V' : Scal C,
      hashToScalar C "ZKP" [base.val, V.val, (pexp C base x).val, encStr pid]
        = hashToScalar C "ZKP" [base.val, V'.val, (pexp C base x).val,
            encStr pid]
      → V = V')
    (hfix : ∀ t : Scal C, hashToScalar C "ZKP" [base.val,
        (pmul C (pexp C base (ZKP.generate C x base pid v).r)
          (pexp C (ZKP.generate C x base pid v).b t)).val,
        (ZKP.generate C x base pid v).b.val, encStr pid] = t
      → t = (ZKP.generate C x base pid v).h) :
    ZKP.verify C (ZKP.generate C x base pid v) base pid = true
    ∧ (∀ r' : Scal C, r' ≠ (ZKP.generate C x base pid v).r →
        ZKP.verify C ⟨(ZKP.generate C x base pid v).h, r',
          (ZKP.generate C x base pid v).b⟩ base pid = false)
    ∧ (∀ h' : Scal C, h' ≠ (ZKP.generate C x base pid v).h →
        ZKP.verify C ⟨h', (ZKP.generate C x base pid v).r,
          (ZKP.generate C x base pid v).b⟩ base pid = false) := by
  haveI : Fact C.n.Prime := ⟨hp⟩
  refine ⟨zkp_generate_verify C x base v pid
    (mul_ne_zero hx (by simpa [identityPt] using hbase)), ?_, ?_⟩
  · intro r' hr'
    exact zkp_tamper_r C hp x base v r' pid hbase hinj hr'
  · intro h' hh'
    exact zkp_tamper_h C x base v h' pid hfix hh'

/-- C3, witness: the proof of knowledge of `x = 2` under the generator in
the concrete context of order 11 verifies, and every `r`- or `h`-tampered
variant of it is rejected. -/
theorem claim_C3_witness :
    Nat.Prime Wctx.n ∧ ((2 : Scal Wctx) ≠ 0) ∧ gG Wctx ≠ identityPt Wctx
    ∧ (ZKP.verify Wctx (ZKP.generate Wctx 2 (gG Wctx) "u" 5) (gG Wctx) "u"
        = true
      ∧ (∀ r' : Scal Wctx, r' ≠ (ZKP.generate Wctx 2 (gG Wctx) "u" 5).r →
          ZKP.verify Wctx ⟨(ZKP.generate Wctx 2 (gG Wctx) "u" 5).h, r',
            (ZKP.generate Wctx 2 (gG Wctx) "u" 5).b⟩ (gG Wctx) "u" = false)
      ∧ (∀ h' : Scal Wctx, h' ≠ (ZKP.generate Wctx 2 (gG Wctx) "u" 5).h →
          ZKP.verify Wctx ⟨h', (ZKP.generate Wctx 2 (gG Wctx) "u" 5).r,
            (ZKP.generate Wctx 2 (gG Wctx) "u" 5).b⟩ (gG Wctx) "u" = false)) :=
  ⟨by decide, by decide, by decide,
   claim_C3 Wctx (by decide) 2 (gG Wctx) 5 "u" (by decide) (by decide)
     (by decide) (by decide)⟩

/-- C4: for all scalars `x1 x2 x3 x4` and `pi`, with `Xi = G^xi`,
`beta = (X1·X2·X3)^(x4·pi)` and `alpha = (X1·X3·X4)^(x2·pi)`, the client's
shared secret `(beta / X4^(x2·pi))^x2` equals the server's mirror
derivation `(alpha / X2^(x4·pi))^x4`, and both equal
`G^((x1+x3)·x2·x4·pi)` — the two parties derive the same group element. -/
theorem claim_C4 (C : OwlCtx) (x1 x2 x3 x4 pi : Scal C) :
    clientK C
        (pexp C (pmul C (pmul C (pexp C (gG C) x1) (pexp C (gG C) x2))
          (pexp C (gG C) x3)) (x4 * pi))
        (pexp C (gG C) x4) x2 pi
      = serverK C
        (pexp C (pmul C (pmul C (pexp C (gG C) x1) (pexp C (gG C) x3))
          (pexp C (gG C) x4)) (x2 * pi))
        (pexp C (gG C) x2) x4 pi
    ∧ clientK C
        (pexp C (pmul C (pmul C (pexp C (gG C) x1) (pexp C (gG C) x2))
          (pexp C (gG C) x3)) (x4 * pi))
        (pexp C (gG C) x4) x2 pi
      = pexp C (gG C) ((x1 + x3) * x2 * x4 * pi) :=
  K_agreement C x1 x2 x3 x4 pi

/-- C5: for every message of the six record types satisfying the §3
validity invariants, `deserialize (serialize m) = m`; in particular,
serializing `UserCredentials` to its JSON container, parsing it back, and
running server `authInit` with the parsed copy gives exactly the same
outcome as with the original. -/
theorem claim_C5 (C : OwlCtx) (hn : 0 < C.n)
    (m1 : RegistrationRequest C) (m2 : AuthInitRequest C)
    (m3 : AuthInitResponse C) (m4 : AuthFinishRequest C)
    (m5 : UserCredentials C) (m6 : AuthInitialValues C)
    (h1 : m1.wf C) (h2 : m2.wf C) (h3 : m3.wf C) (h4 : m4.wf C)
    (h5 : m5.wf C) (h6 : m6.wf C) :
    RegistrationRequest.deserialize C (RegistrationRequest.to_json C m1)
      = .ok m1
    ∧ AuthInitRequest.deserialize C (AuthInitRequest.to_json C m2) = .ok m2
    ∧ AuthInitResponse.deserialize C (AuthInitResponse.to_json C m3) = .ok m3
    ∧ AuthFinishRequest.deserialize C (AuthFinishRequest.to_json C m4)
      = .ok m4
    ∧ UserCredentials.deserialize C (UserCredentials.to_json C m5) = .ok m5
    ∧ AuthInitialValues.deserialize C (AuthInitialValues.to_json C m6)
      = .ok m6
    ∧ ∃ c' : UserCredentials C,
        UserCredentials.deserialize C (UserCredentials.to_json C m5) = .ok c'
        ∧ ∀ (u : String) (req : AuthInitRequest C) (x3 x4 v3 v4 vb : Scal C),
            OwlServer.authInit C u req c' x3 x4 v3 v4 vb
              = OwlServer.authInit C u req m5 x3 x4 v3 v4 vb :=
  ⟨registrationRequest_roundtrip C hn m1 h1,
   authInitRequest_roundtrip C hn m2 h2,
   authInitResponse_roundtrip C hn m3 h3,
   authFinishRequest_roundtrip C hn m4 h4,
   userCredentials_roundtrip C hn m5 h5,
   authInitialValues_roundtrip C hn m6 h6,
   ⟨m5, userCredentials_roundtrip C hn m5 h5,
    fun _ _ _ _ _ _ _ => rfl⟩⟩

/-- C5, witness: concrete well-formed messages of all six types in the
concrete context of order 11 round-trip through their serializations. -/
theorem claim_C5_witness :
    0 < Wctx.n
    ∧ RegistrationRequest.wf Wctx ⟨"u", 1, 2⟩
    ∧ AuthInitRequest.wf Wctx ⟨1, 2, ⟨0, 0, 3⟩, ⟨1, 2, 4⟩⟩
    ∧ AuthInitResponse.wf Wctx ⟨1, 2, 3, ⟨0, 1, 2⟩, ⟨1, 1, 3⟩, ⟨2, 2, 4⟩⟩
    ∧ AuthFinishRequest.wf Wctx ⟨1, ⟨0, 1, 2⟩, 0, [7, 8]⟩
    ∧ UserCredentials.wf Wctx ⟨1, 2, 3⟩
    ∧ AuthInitialValues.wf Wctx ⟨1, 2, 3, 4, 5, 6, 7⟩
    ∧ (RegistrationRequest.deserialize Wctx
        (RegistrationRequest.to_json Wctx ⟨"u", 1, 2⟩) = .ok ⟨"u", 1, 2⟩
      ∧ AuthInitRequest.deserialize Wctx
          (AuthInitRequest.to_json Wctx ⟨1, 2, ⟨0, 0, 3⟩, ⟨1, 2, 4⟩⟩)
          = .ok ⟨1, 2, ⟨0, 0, 3⟩, ⟨1, 2, 4⟩⟩
      ∧ AuthInitResponse.deserialize Wctx (AuthInitResponse.to_json Wctx
          ⟨1, 2, 3, ⟨0, 1, 2⟩, ⟨1, 1, 3⟩, ⟨2, 2, 4⟩⟩)
          = .ok ⟨1, 2, 3, ⟨0, 1, 2⟩, ⟨1, 1, 3⟩, ⟨2, 2, 4⟩⟩
      ∧ AuthFinishRequest.deserialize Wctx
          (AuthFinishRequest.to_json Wctx ⟨1, ⟨0, 1, 2⟩, 0, [7, 8]⟩)
          = .ok ⟨1, ⟨0, 1, 2⟩, 0, [7, 8]⟩
      ∧ UserCredentials.deserialize Wctx
          (UserCredentials.to_json Wctx ⟨1, 2, 3⟩) = .ok ⟨1, 2, 3⟩
      ∧ AuthInitialValues.deserialize Wctx
          (AuthInitialValues.to_json Wctx ⟨1, 2, 3, 4, 5, 6, 7⟩)
          = .ok ⟨1, 2, 3, 4, 5, 6, 7⟩
      ∧ ∃ c' : UserCredentials Wctx,
          UserCredentials.deserialize Wctx
            (UserCredentials.to_json Wctx ⟨1, 2, 3⟩) = .ok c'
          ∧ ∀ (u : String) (req : AuthInitRequest Wctx)
              (x3 x4 v3 v4 vb : Scal Wctx),
              OwlServer.authInit Wctx u req c' x3 x4 v3 v4 vb
                = OwlServer.authInit Wctx u req ⟨1, 2, 3⟩ x3 x4 v3 v4 vb) :=
  ⟨by decide, by decide, by decide, by decide, by decide, by decide,
   by decide,
   claim_C5 Wctx (by decide) ⟨"u", 1, 2⟩ ⟨1, 2, ⟨0, 0, 3⟩, ⟨1, 2, 4⟩⟩
     ⟨1, 2, 3, ⟨0, 1, 2⟩, ⟨1, 1, 3⟩, ⟨2, 2, 4⟩⟩ ⟨1, ⟨0, 1, 2⟩, 0, [7, 8]⟩
     ⟨1, 2, 3⟩ ⟨1, 2, 3, 4, 5, 6, 7⟩ (by decide) (by decide) (by decide)
     (by decide) (by decide) (by decide)⟩

/-- C6: client `authFinish` called on any state other than `InitSent` —
in particular on a fresh client handed a replayed `AuthInitResponse` —
returns `UninitialisedClientError` and never a session output. -/
theorem claim_C6 (C : OwlCtx) (st : ClientState C) (resp : AuthInitResponse C)
    (va : Scal C) (h : ClientState.isInitSent C st = false) :
    (OwlClient.authFinish C st resp va).1 = .UninitialisedClientError
    ∧ ∀ (out : ClientFinishOutput C) (st2 : ClientState C),
        OwlClient.authFinish C st resp va ≠ (.success out, st2) := by
  cases st with
  | fresh =>
    exact ⟨rfl, fun out st2 habs => by simp [OwlClient.authFinish] at habs⟩
  | initSent s => simp [ClientState.isInitSent] at h
  | done =>
    exact ⟨rfl, fun out st2 habs => by simp [OwlClient.authFinish] at habs⟩
  | failed =>
    exact ⟨rfl, fun out st2 habs => by simp [OwlClient.authFinish] at habs⟩

/-- C6, witness: a fresh client handed a (replayed) response answers
`UninitialisedClientError`. -/
theorem claim_C6_witness :
    ClientState.isInitSent Wctx .fresh = false
    ∧ ((OwlClient.authFinish Wctx .fresh
        ⟨1, 2, 3, ⟨0, 1, 2⟩, ⟨1, 1, 3⟩, ⟨2, 2, 4⟩⟩ 1).1
          = .UninitialisedClientError
      ∧ ∀ (out : ClientFinishOutput Wctx) (st2 : ClientState Wctx),
          OwlClient.authFinish Wctx .fresh
            ⟨1, 2, 3, ⟨0, 1, 2⟩, ⟨1, 1, 3⟩, ⟨2, 2, 4⟩⟩ 1
            ≠ (.success out, st2)) :=
  ⟨by decide,
   claim_C6 Wctx .fresh ⟨1, 2, 3, ⟨0, 1, 2⟩, ⟨1, 1, 3⟩, ⟨2, 2, 4⟩⟩ 1 rfl⟩

/-- C7: every outcome of the fallible core operations — client
`authFinish`, server `authInit`, server `authFinish`, and the
deserialization of each message type — is one of the typed variant values
(`success`/`ok`, `ZKPVerificationFailure`, `AuthenticationFailure`,
`UninitialisedClientError`, `DeserializationError`), which the caller
pattern-matches; the operations are total functions into these variant
types and never signal these failures by raising (there is no other way
out of the return type). -/
theorem claim_C7 (C : OwlCtx) (st : ClientState C) (resp : AuthInitResponse C)
    (va : Scal C) (u : String) (req : AuthInitRequest C)
    (creds : UserCredentials C) (x3 x4 v3 v4 vb : Scal C)
    (freq : AuthFinishRequest C) (init : AuthInitialValues C) (w : WireMsg) :
    ((∃ out st2, OwlClient.authFinish C st resp va = (.success out, st2))
      ∨ (∃ st2, OwlClient.authFinish C st resp va
          = (.ZKPVerificationFailure, st2))
      ∨ (∃ st2, OwlClient.authFinish C st resp va
          = (.UninitialisedClientError, st2)))
    ∧ ((∃ r, OwlServer.authInit C u req creds x3 x4 v3 v4 vb = .success r)
      ∨ OwlServer.authInit C u req creds x3 x4 v3 v4 vb
          = .ZKPVerificationFailure)
    ∧ ((∃ out, OwlServer.authFinish C u freq init = .success out)
      ∨ OwlServer.authFinish C u freq init = .ZKPVerificationFailure
      ∨ OwlServer.authFinish C u freq init = .AuthenticationFailure)
    ∧ ((∃ m, RegistrationRequest.deserialize C w = .ok m)
      ∨ (∃ e, RegistrationRequest.deserialize C w = .error e))
    ∧ ((∃ m, AuthInitRequest.deserialize C w = .ok m)
      ∨ (∃ e, AuthInitRequest.deserialize C w = .error e))
    ∧ ((∃ m, AuthInitResponse.deserialize C w = .ok m)
      ∨ (∃ e, AuthInitResponse.deserialize C w = .error e))
    ∧ ((∃ m, AuthFinishRequest.deserialize C w = .ok m)
      ∨ (∃ e, AuthFinishRequest.deserialize C w = .error e))
    ∧ ((∃ m, UserCredentials.deserialize C w = .ok m)
      ∨ (∃ e, UserCredentials.deserialize C w = .error e))
    ∧ ((∃ m, AuthInitialValues.deserialize C w = .ok m)
      ∨ (∃ e, AuthInitialValues.deserialize C w = .error e)) := by
  refine ⟨?_, ?_, ?_, ?_, ?_, ?_, ?_, ?_, ?_⟩
  · rcases hq : OwlClient.authFinish C st resp va with ⟨res, st2⟩
    cases res with
    | success out => exact Or.inl ⟨out, st2, rfl⟩
    | ZKPVerificationFailure => exact Or.inr (Or.inl ⟨st2, rfl⟩)
    | UninitialisedClientError => exact Or.inr (Or.inr ⟨st2, rfl⟩)
  · cases hq : OwlServer.authInit C u req creds x3 x4 v3 v4 vb with
    | success r => exact Or.inl ⟨r, rfl⟩
    | ZKPVerificationFailure => exact Or.inr rfl
  · cases hq : OwlServer.authFinish C u freq init with
    | success out => exact Or.inl ⟨out, rfl⟩
    | ZKPVerificationFailure => exact Or.inr (Or.inl rfl)
    | AuthenticationFailure => exact Or.inr (Or.inr rfl)
  · cases hq : RegistrationRequest.deserialize C w with
    | ok m => exact Or.inl ⟨m, rfl⟩
    | error e => exact Or.inr ⟨e, rfl⟩
  · cases hq : AuthInitRequest.deserialize C w with
    | ok m => exact Or.inl ⟨m, rfl⟩
    | error e => exact Or.inr ⟨e, rfl⟩
  · cases hq : AuthInitResponse.deserialize C w with
    | ok m => exact Or.inl ⟨m, rfl⟩
    | error e => exact Or.inr ⟨e, rfl⟩
  · cases hq : AuthFinishRequest.deserialize C w with
    | ok m => exact Or.inl ⟨m, rfl⟩
    | error e => exact Or.inr ⟨e, rfl⟩
  · cases hq : UserCredentials.deserialize C w with
    | ok m => exact Or.inl ⟨m, rfl⟩
    | error e => exact Or.inr ⟨e, rfl⟩
  · cases hq : AuthInitialValues.deserialize C w with
    | ok m => exact Or.inl ⟨m, rfl⟩
    | error e => exact Or.inr ⟨e, rfl⟩

/-- C8: the key-confirmation comparison used by server `authFinish`
(`OwlCommon.verifyKeyConfirmation`) is constant time with respect to the
tag contents.  The cost model is the instrumented fold `ctScanCount`, whose
second component counts the byte comparisons executed: it always equals
`min` of the two lengths — one comparison per position with no early exit —
so the cost does not depend on the position of the first mismatching byte;
its first component is exactly the mismatch accumulator the comparison
tests against zero. -/
theorem claim_C8 :
    (∀ a b : List ℕ, OwlCommon.ctScanCount a b
        = (OwlCommon.ctDiffCount a b, min a.length b.length))
    ∧ (∀ a b : List ℕ, OwlCommon.verifyKeyConfirmation a b
        = (decide (a.length = b.length)
            && decide ((OwlCommon.ctScanCount a b).1 = 0)))
    ∧ (∀ a b a' b' : List ℕ, a.length = a'.length → b.length = b'.length →
        (OwlCommon.ctScanCount a b).2 = (OwlCommon.ctScanCount a' b').2) := by
  refine ⟨ctScanCount_spec, ?_, ?_⟩
  · intro a b
    rw [ctScanCount_spec]
    rfl
  · intro a b a' b' h1 h2
    rw [ctScanCount_spec, ctScanCount_spec, h1, h2]

/-- C8, witness: two pairs of tags of the same lengths, one differing in
the first byte and one differing in the last, cost the same number of byte
comparisons. -/
theorem claim_C8_witness :
    ([1, 2, 3] : List ℕ).length = ([9, 2, 3] : List ℕ).length
    ∧ ([1, 2, 3] : List ℕ).length = ([1, 2, 9] : List ℕ).length
    ∧ (OwlCommon.ctScanCount [1, 2, 3] [9, 2, 3]).2
        = (OwlCommon.ctScanCount [1, 2, 3] [1, 2, 9]).2 :=
  ⟨by decide, by decide,
   claim_C8.2.2 [1, 2, 3] [9, 2, 3] [1, 2, 3] [1, 2, 9] (by decide)
     (by decide)⟩

/-- C9: the synchronous API is definitionally the same protocol core as
the asynchronous one (the async façade of the source is a thin adapter
over the CPU-only core, §5/§9), and a synchronous run completes the same
protocol: equal keys and mutually verifying confirmation tags, exactly as
the corresponding awaited asynchronous run. -/
theorem claim_C9 (C : OwlCtx) (hp : C.n.Prime) (u pw : String)
    (x1 x2 x3 x4 x3r v1 v2 v3 v4 vb va : Scal C)
    (ht : tOf C u pw ≠ 0) (hpi : piOf C u pw ≠ 0)
    (hx1 : x1 ≠ 0) (hx2 : x2 ≠ 0) (hx3 : x3 ≠ 0) (hx4 : x4 ≠ 0)
    (h12 : x1 + x2 ≠ 0) (h123 : x1 + x2 + x3 ≠ 0) (h134 : x1 + x3 + x4 ≠ 0) :
    (OwlClient.register_sync C = OwlClient.register C
      ∧ OwlClient.authInit_sync C = OwlClient.authInit C
      ∧ OwlClient.authFinish_sync C = OwlClient.authFinish C
      ∧ OwlServer.register_sync C = OwlServer.register C
      ∧ OwlServer.authInit_sync C = OwlServer.authInit C
      ∧ OwlServer.authFinish_sync C = OwlServer.authFinish C)
    ∧ ∃ (creds : UserCredentials C) (ir : ServerInitOk C)
        (co : ClientFinishOutput C) (so : SessionOutput),
        OwlServer.register_sync C (OwlClient.register_sync C u pw) x3r
          = some creds
        ∧ OwlServer.authInit_sync C u
            (OwlClient.authInit_sync C u pw x1 x2 v1 v2).1 creds x3 x4 v3 v4 vb
            = .success ir
        ∧ OwlClient.authFinish_sync C
            (OwlClient.authInit_sync C u pw x1 x2 v1 v2).2 ir.response va
            = (.success co, .done)
        ∧ OwlServer.authFinish_sync C u co.finishRequest ir.initial
            = .success so
        ∧ co.key = so.key ∧ co.kcTest = so.kc ∧ so.kcTest = co.kc
        ∧ OwlCommon.verifyKeyConfirmation co.kcTest so.kc = true
        ∧ OwlCommon.verifyKeyConfirmation so.kcTest co.kc = true :=
  ⟨⟨rfl, rfl, rfl, rfl, rfl, rfl⟩,
   honest_flow_spec C hp u pw x1 x2 x3 x4 x3r v1 v2 v3 v4 vb va
     ht hpi hx1 hx2 hx3 hx4 h12 h123 h134⟩

/-- C9, witness: the synchronous flow evaluated in the concrete context of
order 11 with username `u` and password `a`. -/
theorem claim_C9_witness :
    Nat.Prime Wctx.n
    ∧ tOf Wctx "u" "a" ≠ 0
    ∧ piOf Wctx "u" "a" ≠ 0
    ∧ ((OwlClient.register_sync Wctx = OwlClient.register Wctx
        ∧ OwlClient.authInit_sync Wctx = OwlClient.authInit Wctx
        ∧ OwlClient.authFinish_sync Wctx = OwlClient.authFinish Wctx
        ∧ OwlServer.register_sync Wctx = OwlServer.register Wctx
        ∧ OwlServer.authInit_sync Wctx = OwlServer.authInit Wctx
        ∧ OwlServer.authFinish_sync Wctx = OwlServer.authFinish Wctx)
      ∧ ∃ (creds : UserCredentials Wctx) (ir : ServerInitOk Wctx)
          (co : ClientFinishOutput Wctx) (so : SessionOutput),
          OwlServer.register_sync Wctx (OwlClient.register_sync Wctx "u" "a") 5
            = some creds
          ∧ OwlServer.authInit_sync Wctx "u"
              (OwlClient.authInit_sync Wctx "u" "a" 1 2 1 1).1 creds 3 4 1 1 1
              = .success ir
          ∧ OwlClient.authFinish_sync Wctx
              (OwlClient.authInit_sync Wctx "u" "a" 1 2 1 1).2 ir.response 1
              = (.success co, .done)
          ∧ OwlServer.authFinish_sync Wctx "u" co.finishRequest ir.initial
              = .success so
          ∧ co.key = so.key ∧ co.kcTest = so.kc ∧ so.kcTest = co.kc
          ∧ OwlCommon.verifyKeyConfirmation co.kcTest so.kc = true
          ∧ OwlCommon.verifyKeyConfirmation so.kcTest co.kc = true) :=
  ⟨by decide, by decide, by decide,
   claim_C9 Wctx (by decide) "u" "a" 1 2 3 4 5 1 1 1 1 1 1 (by decide)
     (by decide) (by decide) (by decide) (by decide) (by decide) (by decide)
     (by decide) (by decide)⟩

/-- C10: `OwlClient.login` returns a structured `LoginResult` and never
raises on protocol-level failures (it is a total function into
`LoginResult`): `success` is `false` with an error value set and no key
whenever `send_init` answers `none` (user unknown or server rejection) —
and, by the exact characterization below, whenever any later step fails,
including `send_finish` answering `none`; `success` is `true`, with the
derived key, exactly when the full flow completes. -/
theorem claim_C10 (C : OwlCtx) (u pw : String) (x1 x2 v1 v2 va : Scal C)
    (sendInit : WireMsg → Option WireMsg)
    (sendFinish : WireMsg → Option String) :
    (sendInit (AuthInitRequest.to_json C
        (OwlClient.authInit C u pw x1 x2 v1 v2).1) = none →
      (OwlClient.login C u pw x1 x2 v1 v2 va sendInit sendFinish).success
        = false)
    ∧ ((OwlClient.login C u pw x1 x2 v1 v2 va sendInit sendFinish).success
        = true
      ↔ ∃ (w : WireMsg) (resp : AuthInitResponse C)
          (out : ClientFinishOutput C) (st2 : ClientState C) (s : String),
          sendInit (AuthInitRequest.to_json C
            (OwlClient.authInit C u pw x1 x2 v1 v2).1) = some w
          ∧ AuthInitResponse.deserialize C w = .ok resp
          ∧ OwlClient.authFinish C (OwlClient.authInit C u pw x1 x2 v1 v2).2
              resp va = (.success out, st2)
          ∧ sendFinish (AuthFinishRequest.to_json C out.finishRequest)
              = some s
          ∧ (OwlClient.login C u pw x1 x2 v1 v2 va sendInit sendFinish).key
              = some out.key)
    ∧ ((OwlClient.login C u pw x1 x2 v1 v2 va sendInit sendFinish).success
        = false →
      (OwlClient.login C u pw x1 x2 v1 v2 va sendInit sendFinish).key = none
      ∧ (OwlClient.login C u pw x1 x2 v1 v2 va sendInit
          sendFinish).error.isSome = true) := by
  rcases hsi : sendInit (AuthInitRequest.to_json C
      (OwlClient.authInit C u pw x1 x2 v1 v2).1) with _ | w
  · have hl : OwlClient.login C u pw x1 x2 v1 v2 va sendInit sendFinish
        = ⟨false, none, some "authInit was rejected"⟩ := by
      simp [OwlClient.login, hsi]
    refine ⟨fun _ => by rw [hl], ?_, fun _ => by rw [hl]; exact ⟨rfl, rfl⟩⟩
    constructor
    · intro h
      rw [hl] at h
      simp at h
    · rintro ⟨w', resp', out', st2', s', hw', hresp', hout', hs', hk'⟩
      exact Option.noConfusion hw'
  · rcases hde : AuthInitResponse.deserialize C w with e | resp
    · have hl : OwlClient.login C u pw x1 x2 v1 v2 va sendInit sendFinish
          = ⟨false, none, some "bad AuthInitResponse"⟩ := by
        simp [OwlClient.login, hsi, hde]
      refine ⟨fun h => Option.noConfusion h, ?_,
        fun _ => by rw [hl]; exact ⟨rfl, rfl⟩⟩
      constructor
      · intro h
        rw [hl] at h
        simp at h
      · rintro ⟨w', resp', out', st2', s', hw', hresp', hout', hs', hk'⟩
        injection hw' with hww
        subst hww
        rw [hde] at hresp'
        exact Except.noConfusion hresp'
    · rcases hcf : OwlClient.authFinish C
          (OwlClient.authInit C u pw x1 x2 v1 v2).2 resp va with ⟨res, st2⟩
      cases res with
      | success out =>
        rcases hsf : sendFinish (AuthFinishRequest.to_json C
            out.finishRequest) with _ | s
        · have hl : OwlClient.login C u pw x1 x2 v1 v2 va sendInit sendFinish
              = ⟨false, none, some "authFinish was rejected"⟩ := by
            simp [OwlClient.login, hsi, hde, hcf, hsf]
          refine ⟨fun h => Option.noConfusion h, ?_,
            fun _ => by rw [hl]; exact ⟨rfl, rfl⟩⟩
          constructor
          · intro h
            rw [hl] at h
            simp at h
          · rintro ⟨w', resp', out', st2', s', hw', hresp', hout', hs', hk'⟩
            injection hw' with hww
            subst hww
            rw [hde] at hresp'
            injection hresp' with hrr
            subst hrr
            rw [hcf] at hout'
            injection hout' with ho hs2
            injection ho with hoo
            subst hoo
            rw [hsf] at hs'
            exact Option.noConfusion hs'
        · have hl : OwlClient.login C u pw x1 x2 v1 v2 va sendInit sendFinish
              = ⟨true, some out.key, none⟩ := by
            simp [OwlClient.login, hsi, hde, hcf, hsf]
          refine ⟨fun h => Option.noConfusion h, ?_, fun h => ?_⟩
          · constructor
            · intro _
              exact ⟨w, resp, out, st2, s, rfl, hde, hcf, hsf, by rw [hl]⟩
            · intro _
              rw [hl]
          · rw [hl] at h
            simp at h
      | ZKPVerificationFailure =>
        have hl : OwlClient.login C u pw x1 x2 v1 v2 va sendInit sendFinish
            = ⟨false, none, some "client authFinish failed"⟩ := by
          simp [OwlClient.login, hsi, hde, hcf]
        refine ⟨fun h => Option.noConfusion h, ?_,
          fun _ => by rw [hl]; exact ⟨rfl, rfl⟩⟩
        constructor
        · intro h
          rw [hl] at h
          simp at h
        · rintro ⟨w', resp', out', st2', s', hw', hresp', hout', hs', hk'⟩
          injection hw' with hww
          subst hww
          rw [hde] at hresp'
          injection hresp' with hrr
          subst hrr
          rw [hcf] at hout'
          injection hout' with ho hs2
          exact ClientFinishResult.noConfusion ho
      | UninitialisedClientError =>
        have hl : OwlClient.login C u pw x1 x2 v1 v2 va sendInit sendFinish
            = ⟨false, none, some "client authFinish failed"⟩ := by
          simp [OwlClient.login, hsi, hde, hcf]
        refine ⟨fun h => Option.noConfusion h, ?_,
          fun _ => by rw [hl]; exact ⟨rfl, rfl⟩⟩
        constructor
        · intro h
          rw [hl] at h
          simp at h
        · rintro ⟨w', resp', out', st2', s', hw', hresp', hout', hs', hk'⟩
          injection hw' with hww
          subst hww
          rw [hde] at hresp'
          injection hresp' with hrr
          subst hrr
          rw [hcf] at hout'
          injection hout' with ho hs2
          exact ClientFinishResult.noConfusion ho

/-- C10, witness: a login whose `send_init` always answers `none` (the
user does not exist) fails with `success = false`, a set error and no
key. -/
theorem claim_C10_witness :
    ((fun _ : WireMsg => (none : Option WireMsg)) (AuthInitRequest.to_json Wctx
        (OwlClient.authInit Wctx "u" "a" 1 2 1 1).1) = none)
    ∧ (OwlClient.login Wctx "u" "a" 1 2 1 1 1
        (fun _ => none) (fun _ => none)).success = false
    ∧ (OwlClient.login Wctx "u" "a" 1 2 1 1 1
        (fun _ => none) (fun _ => none)).key = none
    ∧ (OwlClient.login Wctx "u" "a" 1 2 1 1 1
        (fun _ => none) (fun _ => none)).error.isSome = true := by
  have h := claim_C10 Wctx "u" "a" 1 2 1 1 1 (fun _ => none) (fun _ => none)
  have hs : (OwlClient.login Wctx "u" "a" 1 2 1 1 1
      (fun _ => none) (fun _ => none)).success = false := h.1 rfl
  exact ⟨rfl, hs, (h.2.2 hs).1, (h.2.2 hs).2⟩

end Owl
